import Mathlib

/-!
Shallow embedding of the real-time chat fan-out and presence subsystem of the
work-flow-connect repository: the socket controller
(server/src/controllers/socket.controller.js, function initSocket) together
with the database-level membership mutations performed by the chat controller
(server/src/controllers/chat.controller.js, addParticipant and leaveChat),
which can change a chat's participant set while sockets stay connected.

The embedding is a transition system: a server state (connected sockets with
the user snapshot captured at authentication, the userSockets registry map,
the socket.io rooms, and the relational database) and a step function that
processes one event, returning the new state and the list of observable
outputs (emitted socket events and persistence writes).  Persistence-call
failures are modelled by an optional index naming which database call of a
handler throws; the calls are counted in execution order from zero.
-/

namespace WorkFlowConnect

/-- Row of the User table as the socket layer sees it (lastSeen timestamps are
abstracted away; the dbUserWrite output records each isOnline and lastSeen
write). -/
structure DBUser where
  id : String
  name : String
  photoURL : String
  isOnline : Bool
  deriving DecidableEq

/-- Row of the Chat table; lastMessageAt is modelled as a monotone counter
(the message-id counter at write time stands in for the wall-clock date). -/
structure DBChat where
  id : String
  isGroup : Bool
  lastMessageAt : Nat
  deriving DecidableEq

/-- Row of the Message table.  Message ids are drawn from a counter.  The
message model file itself is not in the source tree; the columns (content,
chatId, userId, read) are those the controllers read and write, and a
freshly created message is unread (read false), matching the controllers'
read-state queries and the spec's read-receipt semantics. -/
structure Msg where
  id : Nat
  content : String
  chatId : String
  userId : String
  read : Bool
  deriving DecidableEq

/-- The relational database visible to the socket controller: users, chats,
the chat-participants association table, and messages. -/
structure DB where
  users : List DBUser
  chats : List DBChat
  participants : List (String × String)
  messages : List Msg
  nextMsgId : Nat
  deriving DecidableEq

/-- User.findByPk. -/
def findUser (db : DB) (u : String) : Option DBUser :=
  db.users.find? (fun r => r.id == u)

/-- Chat.findByPk. -/
def findChat (db : DB) (c : String) : Option DBChat :=
  db.chats.find? (fun r => r.id == c)

/-- chat.hasParticipant(userId): membership in the association table. -/
def hasParticipant (db : DB) (c u : String) : Bool :=
  db.participants.any (fun p => p == (c, u))

/-- Membership used by user.getChats(): the chat row exists and the user is a
participant. -/
def chatMember (db : DB) (c u : String) : Bool :=
  (findChat db c).isSome && hasParticipant db c u

/-- User.update({isOnline, lastSeen}, {where: {id: u}}). -/
def setOnline (db : DB) (u : String) (b : Bool) : DB :=
  { db with users := db.users.map (fun r => if r.id == u then { r with isOnline := b } else r) }

/-- chat.lastMessageAt = new Date(); chat.save(). -/
def touchChat (db : DB) (c : String) : DB :=
  { db with chats := db.chats.map (fun r => if r.id == c then { r with lastMessageAt := db.nextMsgId } else r) }

/-- The socket.user snapshot captured by the authentication middleware, also
the author summary attributes (id, name, photoURL) included on new_message. -/
structure UserInfo where
  id : String
  name : String
  photoURL : String
  deriving DecidableEq

/-- In-memory server state: the connected sockets (socket.io transport level,
with the authenticated user snapshot), the userSockets Map of Sets, the
socket.io rooms keyed by chat id, and the database. -/
structure ServerState where
  connected : String → Option UserInfo
  userSockets : String → Option (List String)
  rooms : String → List String
  db : DB

/-- Pointwise update of a keyed function (Map.set / Map.delete). -/
def upd {α : Type} (f : String → α) (k : String) (v : α) : String → α :=
  fun k' => if k' = k then v else f k'

/-- Set.add on the list representation of a JS Set: no duplicate is ever
introduced. -/
def addElem (l : List String) (s : String) : List String :=
  if s ∈ l then l else s :: l

/-- Observable outputs of one step: socket events and persistence writes.
statusChange is the io.emit('user_status_change') broadcast to every
connected session; dbUserWrite is the User.update({isOnline, lastSeen})
persistence write; the remaining constructors name the one socket the event
is delivered to. -/
inductive Output where
  | statusChange (userId : String) (isOnline : Bool)
  | dbUserWrite (userId : String) (isOnline : Bool)
  | newMessage (sock : String) (msg : Msg) (author : Option UserInfo)
  | userTyping (sock chatId userId userName : String)
  | messagesRead (sock chatId userId : String)
  | errorEvt (sock message : String)
  deriving DecidableEq

/-- Events processed by the transition system.  The socket events carry the
socket id they arrive on; connect and disconnect carry the authenticated
user id captured in the handler closure.  addParticipantHTTP and
leaveChatHTTP are the chat-controller requests that mutate a chat's
participant set while sockets stay connected.  failIdx injects a persistence
failure: the call with that execution-order index throws. -/
inductive Event where
  | connect (userId socketId : String)
  | disconnect (userId socketId : String)
  | sendMessage (socketId chatId content : String) (failIdx : Option Nat)
  | typing (socketId chatId : String)
  | markRead (socketId chatId : String) (failIdx : Option Nat)
  | joinChat (socketId chatId : String) (failIdx : Option Nat)
  | addParticipantHTTP (requesterId chatId targetId : String)
  | leaveChatHTTP (userId chatId : String)
  deriving DecidableEq

/-- Does the persistence call with index k throw? -/
def fails (failIdx : Option Nat) (k : Nat) : Bool :=
  failIdx == some k

/-- Connection handler (socket.controller.js lines 44 to 72): the middleware
looks up the user (rejecting the connection before any mutation if absent),
then the handler writes isOnline true with lastSeen, registers the socket in
userSockets (creating the Set if absent), broadcasts user_status_change to
everyone, and joins the socket to the room of every chat the user currently
participates in. -/
def connectStep (st : ServerState) (u s : String) : ServerState × List Output :=
  match findUser st.db u with
  | none => (st, [])
  | some usr =>
    ({ connected := upd st.connected s (some ⟨usr.id, usr.name, usr.photoURL⟩),
       userSockets := upd st.userSockets u (some (addElem ((st.userSockets u).getD []) s)),
       rooms := fun c => if chatMember st.db c u then addElem (st.rooms c) s else st.rooms c,
       db := setOnline st.db u true },
      [Output.dbUserWrite u true, Output.statusChange u true])

/-- Disconnect handler (lines 193 to 218) plus the socket.io transport
effect of a disconnect (the socket leaves every room and the connected set).
The handler deletes the socket id from the user's Set if the Map has the
user, and only when the Set becomes empty deletes the entry, writes
isOnline false with lastSeen, and broadcasts the offline status change. -/
def disconnectStep (st : ServerState) (u s : String) : ServerState × List Output :=
  let conn' := upd st.connected s none
  let rooms' := fun c => (st.rooms c).erase s
  match st.userSockets u with
  | none => ({ st with connected := conn', rooms := rooms' }, [])
  | some l =>
    let l' := l.erase s
    if l'.isEmpty then
      ({ connected := conn', rooms := rooms',
         userSockets := upd st.userSockets u none,
         db := setOnline st.db u false },
       [Output.dbUserWrite u false, Output.statusChange u false])
    else
      ({ st with connected := conn', rooms := rooms',
                 userSockets := upd st.userSockets u (some l') }, [])

/-- send_message handler (lines 75 to 122).  Persistence calls in execution
order: 0 Chat.findByPk, 1 chat.hasParticipant, 2 Message.create,
3 chat.save, 4 Message.findByPk with the author include.  A throw reaches
the catch, which emits one error event to the sender; effects of calls that
completed before the throw remain.  On success the message joined with the
author summary is emitted to every socket in the chat's room. -/
def sendMessageStep (st : ServerState) (s c content : String) (failIdx : Option Nat) :
    ServerState × List Output :=
  match st.connected s with
  | none => (st, [])
  | some snap =>
    if fails failIdx 0 then (st, [Output.errorEvt s "Error al enviar mensaje"]) else
    match findChat st.db c with
    | none => (st, [Output.errorEvt s "Chat no encontrado"])
    | some _ =>
      if fails failIdx 1 then (st, [Output.errorEvt s "Error al enviar mensaje"]) else
      if hasParticipant st.db c snap.id then
        if fails failIdx 2 then (st, [Output.errorEvt s "Error al enviar mensaje"]) else
        let msg : Msg := ⟨st.db.nextMsgId, content, c, snap.id, false⟩
        let db1 : DB := { st.db with messages := st.db.messages ++ [msg],
                                     nextMsgId := st.db.nextMsgId + 1 }
        if fails failIdx 3 then ({ st with db := db1 }, [Output.errorEvt s "Error al enviar mensaje"]) else
        let db2 := touchChat db1 c
        if fails failIdx 4 then ({ st with db := db2 }, [Output.errorEvt s "Error al enviar mensaje"]) else
        let author := (findUser db2 snap.id).map (fun r => (⟨r.id, r.name, r.photoURL⟩ : UserInfo))
        ({ st with db := db2 }, (st.rooms c).map (fun t => Output.newMessage t msg author))
      else (st, [Output.errorEvt s "No tienes acceso a este chat"])

/-- typing handler (lines 125 to 134): no membership check; the event is
relayed to every socket in the chat's room except the sender, carrying the
user name captured at authentication. -/
def typingStep (st : ServerState) (s c : String) : ServerState × List Output :=
  match st.connected s with
  | none => (st, [])
  | some snap =>
    (st, ((st.rooms c).filter (fun t => t ≠ s)).map
      (fun t => Output.userTyping t c snap.id snap.name))

/-- mark_read handler (lines 137 to 162).  Persistence call 0 is
Message.update; its catch only logs, emitting nothing.  On success every
unread message of the chat not authored by the sender becomes read, and
messages_read is emitted to every socket in the room except the sender. -/
def markReadStep (st : ServerState) (s c : String) (failIdx : Option Nat) :
    ServerState × List Output :=
  match st.connected s with
  | none => (st, [])
  | some snap =>
    if fails failIdx 0 then (st, []) else
    let db1 : DB := { st.db with messages := st.db.messages.map (fun m =>
      if m.chatId == c && m.userId != snap.id && !m.read then { m with read := true } else m) }
    ({ st with db := db1 },
     ((st.rooms c).filter (fun t => t ≠ s)).map (fun t => Output.messagesRead t c snap.id))

/-- join_chat handler (lines 165 to 190).  Persistence calls: 0
Chat.findByPk, 1 chat.hasParticipant; a throw reaches the catch, which
emits one error.  The membership check is a live database query; on success
the socket joins the chat's room. -/
def joinChatStep (st : ServerState) (s c : String) (failIdx : Option Nat) :
    ServerState × List Output :=
  match st.connected s with
  | none => (st, [])
  | some snap =>
    if fails failIdx 0 then (st, [Output.errorEvt s "Error al unirse al chat"]) else
    match findChat st.db c with
    | none => (st, [Output.errorEvt s "Chat no encontrado"])
    | some _ =>
      if fails failIdx 1 then (st, [Output.errorEvt s "Error al unirse al chat"]) else
      if hasParticipant st.db c snap.id then
        ({ st with rooms := upd st.rooms c (addElem (st.rooms c) s) }, [])
      else (st, [Output.errorEvt s "No tienes acceso a este chat"])

/-- addParticipant request (chat.controller.js lines 295 to 380): after its
guards (chat exists, is a group, requester participates, target user exists
and is not yet a participant) it adds the association row and creates a
system message.  Socket rooms are not touched. -/
def addParticipantStep (st : ServerState) (requesterId c targetId : String) :
    ServerState × List Output :=
  match findChat st.db c with
  | none => (st, [])
  | some chat =>
    if !chat.isGroup then (st, []) else
    if !hasParticipant st.db c requesterId then (st, []) else
    match findUser st.db requesterId, findUser st.db targetId with
    | some requser, some target =>
      if hasParticipant st.db c targetId then (st, []) else
      ({ st with db := { st.db with
           participants := st.db.participants ++ [(c, targetId)],
           messages := st.db.messages ++
             [⟨st.db.nextMsgId, requser.name ++ " ha añadido a " ++ target.name ++ " al chat",
               c, "system", false⟩],
           nextMsgId := st.db.nextMsgId + 1 } }, [])
    | _, _ => (st, [])

/-- leaveChat request (chat.controller.js lines 385 to 439): after its
guards (chat exists, user participates, chat is a group) it removes the
association row and creates a system message.  Socket rooms are not
touched. -/
def leaveChatStep (st : ServerState) (u c : String) : ServerState × List Output :=
  match findChat st.db c, findUser st.db u with
  | some chat, some usr =>
    if !hasParticipant st.db c u then (st, []) else
    if !chat.isGroup then (st, []) else
    ({ st with db := { st.db with
         participants := st.db.participants.filter (fun p => p ≠ (c, u)),
         messages := st.db.messages ++
           [⟨st.db.nextMsgId, usr.name ++ " ha abandonado el chat", c, "system", false⟩],
         nextMsgId := st.db.nextMsgId + 1 } }, [])
  | _, _ => (st, [])

/-- One step of the transition system. -/
def step (st : ServerState) : Event → ServerState × List Output
  | .connect u s => connectStep st u s
  | .disconnect u s => disconnectStep st u s
  | .sendMessage s c content f => sendMessageStep st s c content f
  | .typing s c => typingStep st s c
  | .markRead s c f => markReadStep st s c f
  | .joinChat s c f => joinChatStep st s c f
  | .addParticipantHTTP r c t => addParticipantStep st r c t
  | .leaveChatHTTP u c => leaveChatStep st u c

/-- Run a sequence of events, collecting all outputs in order. -/
def run (st : ServerState) : List Event → ServerState × List Output
  | [] => (st, [])
  | e :: tr =>
    let p := step st e
    let q := run p.1 tr
    (q.1, p.2 ++ q.2)

/-- Server state at process start: nothing connected, empty registry and
rooms, over a given database. -/
def initState (db : DB) : ServerState :=
  { connected := fun _ => none, userSockets := fun _ => none, rooms := fun _ => [], db := db }

/-- Physical well-formedness of one event in a state: a new connection uses
a socket id that is not currently connected, and a disconnect's closure user
is the user the socket authenticated as.  All other events are
unconstrained. -/
def eventOK (st : ServerState) : Event → Bool
  | .connect _ s => (st.connected s).isNone
  | .disconnect u s =>
    match st.connected s with
    | some snap => snap.id == u
    | none => true
  | _ => true

/-- Physical well-formedness of a trace from a state. -/
def okTrace (st : ServerState) : List Event → Bool
  | [] => true
  | e :: tr => eventOK st e && okTrace (step st e).1 tr

/-- Number of live registered connections of a user (size of the
userSockets Set, zero when the Map has no entry). -/
def liveCount (st : ServerState) (u : String) : Nat :=
  ((st.userSockets u).getD []).length

/-- State after running a trace from process start. -/
def runState (db : DB) (tr : List Event) : ServerState :=
  (run (initState db) tr).1

/-- All outputs of a trace from process start. -/
def runOut (db : DB) (tr : List Event) : List Output :=
  (run (initState db) tr).2

/-- Number of occurrences of an element in a list. -/
def countOccur {α : Type} [DecidableEq α] (a : α) : List α → Nat
  | [] => 0
  | x :: xs => (if x = a then 1 else 0) + countOccur a xs

/-- Chat-controller requests that mutate a chat's participant set. -/
def isMemberEvent : Event → Bool
  | .addParticipantHTTP _ _ _ => true
  | .leaveChatHTTP _ _ => true
  | _ => false

/-- Trace contains no chat-controller membership mutation. -/
def noMemberChange (tr : List Event) : Bool :=
  tr.all (fun e => !(isMemberEvent e))

/-- Durability check: some persisted message agrees with the given record on
id, content, chat and author (the read flag may have changed since). -/
def retrievable (db : DB) (m : Msg) : Bool :=
  db.messages.any (fun m' =>
    m'.id == m.id && m'.content == m.content && m'.chatId == m.chatId && m'.userId == m.userId)

@[simp]
theorem upd_same {α : Type} (f : String → α) (k : String) (v : α) : upd f k v k = v := by
  simp [upd]

theorem upd_ne {α : Type} (f : String → α) (k : String) (v : α) {k' : String} (h : k' ≠ k) :
    upd f k v k' = f k' := by
  simp [upd, h]

@[simp]
theorem mem_addElem {l : List String} {s t : String} :
    t ∈ addElem l s ↔ t = s ∨ t ∈ l := by
  unfold addElem
  split
  · constructor
    · exact fun h => Or.inr h
    · rintro (rfl | h) <;> assumption
  · simp [or_comm]

theorem addElem_nodup {l : List String} (h : l.Nodup) (s : String) : (addElem l s).Nodup := by
  unfold addElem
  split
  · exact h
  · exact List.nodup_cons.2 ⟨by assumption, h⟩

theorem addElem_ne_nil (l : List String) (s : String) : addElem l s ≠ [] := by
  unfold addElem
  split
  · intro hnil
    simp_all
  · simp

@[simp]
theorem countOccur_nil {α : Type} [DecidableEq α] (a : α) : countOccur a [] = 0 := rfl

@[simp]
theorem countOccur_cons {α : Type} [DecidableEq α] (a x : α) (xs : List α) :
    countOccur a (x :: xs) = (if x = a then 1 else 0) + countOccur a xs := rfl

theorem countOccur_append {α : Type} [DecidableEq α] (a : α) (l₁ l₂ : List α) :
    countOccur a (l₁ ++ l₂) = countOccur a l₁ + countOccur a l₂ := by
  induction l₁ with
  | nil => simp
  | cons x xs ih => simp [ih, Nat.add_assoc]

theorem countOccur_eq_zero {α : Type} [DecidableEq α] {a : α} {l : List α}
    (h : ∀ x ∈ l, x ≠ a) : countOccur a l = 0 := by
  induction l with
  | nil => rfl
  | cons x xs ih =>
    have hx : x ≠ a := h x (by simp)
    simp [hx, ih (fun y hy => h y (by simp [hy]))]

theorem countOccur_eq_zero_of_not_mem {α : Type} [DecidableEq α] {a : α} {l : List α}
    (h : a ∉ l) : countOccur a l = 0 :=
  countOccur_eq_zero (fun _x hx hxa => h (hxa ▸ hx))

theorem countOccur_eq_one_of_nodup {α : Type} [DecidableEq α] {a : α} {l : List α}
    (hn : l.Nodup) (hm : a ∈ l) : countOccur a l = 1 := by
  induction l with
  | nil => cases hm
  | cons x xs ih =>
    rcases List.nodup_cons.1 hn with ⟨hx, hxs⟩
    rcases List.mem_cons.1 hm with rfl | hm'
    · simp [countOccur_eq_zero_of_not_mem hx]
    · have hxa : x ≠ a := fun h => hx (h ▸ hm')
      simp [hxa, ih hxs hm']

theorem countOccur_map_inj {α β : Type} [DecidableEq α] [DecidableEq β]
    {g : α → β} (hg : ∀ x y, g x = g y → x = y) (t : α) (l : List α) :
    countOccur (g t) (l.map g) = countOccur t l := by
  induction l with
  | nil => rfl
  | cons x xs ih =>
    by_cases hx : x = t
    · subst hx; simp [ih]
    · have : g x ≠ g t := fun h => hx (hg _ _ h)
      simp [this, hx, ih]

/-- Pointwise equality of all fields gives equality of server states. -/
theorem ServerState.ext' {a b : ServerState}
    (h1 : ∀ s, a.connected s = b.connected s)
    (h2 : ∀ u, a.userSockets u = b.userSockets u)
    (h3 : ∀ c, a.rooms c = b.rooms c)
    (h4 : a.db = b.db) : a = b := by
  cases a
  cases b
  simp only [ServerState.mk.injEq]
  exact ⟨funext h1, funext h2, funext h3, h4⟩

theorem findUser_id {db : DB} {u : String} {r : DBUser} (h : findUser db u = some r) :
    r.id = u := by
  have := List.find?_some h
  simpa using this

theorem findUser_mem {db : DB} {u : String} {r : DBUser} (h : findUser db u = some r) :
    r ∈ db.users :=
  List.mem_of_find?_eq_some h

/-- Structural invariant that holds after any event sequence: every Set stored
in the userSockets Map is nonempty and duplicate-free, and every room list is
duplicate-free. -/
def BaseInv (st : ServerState) : Prop :=
  (∀ u l, st.userSockets u = some l → l ≠ [] ∧ l.Nodup) ∧ (∀ c, (st.rooms c).Nodup)

theorem baseInv_init (db : DB) : BaseInv (initState db) := by
  constructor
  · intro u l h
    simp [initState] at h
  · intro c
    simp [initState]

theorem baseInv_step {st : ServerState} (hinv : BaseInv st) (e : Event) :
    BaseInv (step st e).1 := by
  obtain ⟨hreg, hrooms⟩ := hinv
  cases e with
  | connect u s =>
    simp only [step, connectStep]
    cases hfu : findUser st.db u with
    | none => exact ⟨hreg, hrooms⟩
    | some usr =>
      constructor
      · intro u' l h
        simp only [upd] at h
        split at h
        · cases h
          refine ⟨addElem_ne_nil _ _, ?_⟩
          cases hus : st.userSockets u with
          | none => simp [hus, addElem_nodup List.nodup_nil]
          | some l0 => simp [hus, addElem_nodup (hreg u l0 hus).2]
        · exact hreg u' l h
      · intro c
        simp only
        split
        · exact addElem_nodup (hrooms c) s
        · exact hrooms c
  | disconnect u s =>
    simp only [step, disconnectStep]
    cases hus : st.userSockets u with
    | none =>
      refine ⟨hreg, fun c => (hrooms c).erase s⟩
    | some l =>
      simp only
      split
      · constructor
        · intro u' l' h
          simp only [upd] at h
          split at h
          · cases h
          · exact hreg u' l' h
        · exact fun c => (hrooms c).erase s
      · constructor
        · intro u' l' h
          simp only [upd] at h
          split at h
          · cases h
            have hl := hreg u l hus
            refine ⟨by simpa using (by assumption : ¬ (l.erase s).isEmpty = true), hl.2.erase s⟩
          · exact hreg u' l' h
        · exact fun c => (hrooms c).erase s
  | sendMessage s c content f =>
    simp only [step, sendMessageStep]
    repeat' split
    all_goals exact ⟨hreg, hrooms⟩
  | typing s c =>
    simp only [step, typingStep]
    repeat' split
    all_goals exact ⟨hreg, hrooms⟩
  | markRead s c f =>
    simp only [step, markReadStep]
    repeat' split
    all_goals exact ⟨hreg, hrooms⟩
  | joinChat s c f =>
    simp only [step, joinChatStep]
    repeat' split
    all_goals try exact ⟨hreg, hrooms⟩
    refine ⟨hreg, fun c' => ?_⟩
    simp only [upd]
    split
    · exact addElem_nodup (hrooms c) s
    · exact hrooms c'
  | addParticipantHTTP r c t =>
    simp only [step, addParticipantStep]
    repeat' split
    all_goals exact ⟨hreg, hrooms⟩
  | leaveChatHTTP u c =>
    simp only [step, leaveChatStep]
    repeat' split
    all_goals exact ⟨hreg, hrooms⟩

theorem baseInv_run {st : ServerState} (hinv : BaseInv st) (tr : List Event) :
    BaseInv (run st tr).1 := by
  induction tr generalizing st with
  | nil => exact hinv
  | cons e tr ih => exact ih (baseInv_step hinv e)

/-- Per-event online emission count is a function of the event alone: one for
every accepted connection of the user. -/
def statusTrueInc (st : ServerState) (v : String) : Event → Nat
  | .connect u _ => if v = u ∧ (findUser st.db u).isSome then 1 else 0
  | _ => 0

/-- Per-event offline emission count: one exactly when a disconnect empties
the user's socket Set. -/
def statusFalseInc (st : ServerState) (v : String) : Event → Nat
  | .disconnect u s =>
    match st.userSockets u with
    | some l => if v = u ∧ (l.erase s).isEmpty then 1 else 0
    | none => 0
  | _ => 0

/-- Accepted connection events of a user along a trace. -/
def connectEvents (st : ServerState) (u : String) : List Event → Nat
  | [] => 0
  | e :: tr => statusTrueInc st u e + connectEvents (step st e).1 u tr

/-- Number of transitions of the user's live-connection count from zero to
positive along a trace. -/
def onlineEdges (st : ServerState) (u : String) : List Event → Nat
  | [] => 0
  | e :: tr =>
    (if liveCount st u = 0 ∧ liveCount (step st e).1 u ≠ 0 then 1 else 0) +
      onlineEdges (step st e).1 u tr

/-- Number of transitions of the user's live-connection count from positive
to zero along a trace. -/
def offlineEdges (st : ServerState) (u : String) : List Event → Nat
  | [] => 0
  | e :: tr =>
    (if liveCount st u ≠ 0 ∧ liveCount (step st e).1 u = 0 then 1 else 0) +
      offlineEdges (step st e).1 u tr

/-- Outputs that concern presence: the user_status_change broadcast and the
isOnline persistence write. -/
def presenceOut : Output → Bool
  | .statusChange _ _ => true
  | .dbUserWrite _ _ => true
  | _ => false

theorem countOccur_presence_zero {o : Output} (ho : presenceOut o = true) {l : List Output}
    (h : ∀ x ∈ l, presenceOut x = false) : countOccur o l = 0 :=
  countOccur_eq_zero (fun x hx hxo => by
    have hf := h x hx
    rw [hxo] at hf
    rw [ho] at hf
    exact Bool.noConfusion hf)

theorem sendMessageStep_presence_free {st : ServerState} {s c content : String}
    {f : Option Nat} : ∀ x ∈ (sendMessageStep st s c content f).2, presenceOut x = false := by
  unfold sendMessageStep
  repeat' split
  all_goals intro x hx
  all_goals simp only [List.mem_singleton, List.mem_map, List.not_mem_nil] at hx
  all_goals first
    | (obtain ⟨t, -, rfl⟩ := hx; rfl)
    | (subst hx; rfl)
    | cases hx
    | rfl

theorem typingStep_presence_free {st : ServerState} {s c : String} :
    ∀ x ∈ (typingStep st s c).2, presenceOut x = false := by
  unfold typingStep
  repeat' split
  all_goals intro x hx
  all_goals simp only [List.mem_map, List.not_mem_nil] at hx
  all_goals first
    | (obtain ⟨t, -, rfl⟩ := hx; rfl)
    | cases hx
    | rfl

theorem markReadStep_presence_free {st : ServerState} {s c : String} {f : Option Nat} :
    ∀ x ∈ (markReadStep st s c f).2, presenceOut x = false := by
  unfold markReadStep
  repeat' split
  all_goals intro x hx
  all_goals simp only [List.mem_map, List.not_mem_nil] at hx
  all_goals first
    | (obtain ⟨t, -, rfl⟩ := hx; rfl)
    | cases hx
    | rfl

theorem joinChatStep_presence_free {st : ServerState} {s c : String} {f : Option Nat} :
    ∀ x ∈ (joinChatStep st s c f).2, presenceOut x = false := by
  unfold joinChatStep
  repeat' split
  all_goals intro x hx
  all_goals simp only [List.mem_singleton, List.not_mem_nil] at hx
  all_goals first
    | (subst hx; rfl)
    | cases hx
    | rfl

theorem addParticipantStep_presence_free {st : ServerState} {r c t : String} :
    ∀ x ∈ (addParticipantStep st r c t).2, presenceOut x = false := by
  unfold addParticipantStep
  repeat' split
  all_goals intro x hx
  all_goals cases hx

theorem leaveChatStep_presence_free {st : ServerState} {u c : String} :
    ∀ x ∈ (leaveChatStep st u c).2, presenceOut x = false := by
  unfold leaveChatStep
  repeat' split
  all_goals intro x hx
  all_goals cases hx

theorem sendMessageStep_userSockets {st : ServerState} {s c content : String} {f : Option Nat} :
    (sendMessageStep st s c content f).1.userSockets = st.userSockets := by
  unfold sendMessageStep
  repeat' split
  all_goals rfl

theorem typingStep_userSockets {st : ServerState} {s c : String} :
    (typingStep st s c).1.userSockets = st.userSockets := by
  unfold typingStep
  repeat' split
  all_goals rfl

theorem markReadStep_userSockets {st : ServerState} {s c : String} {f : Option Nat} :
    (markReadStep st s c f).1.userSockets = st.userSockets := by
  unfold markReadStep
  repeat' split
  all_goals rfl

theorem joinChatStep_userSockets {st : ServerState} {s c : String} {f : Option Nat} :
    (joinChatStep st s c f).1.userSockets = st.userSockets := by
  unfold joinChatStep
  repeat' split
  all_goals rfl

theorem addParticipantStep_userSockets {st : ServerState} {r c t : String} :
    (addParticipantStep st r c t).1.userSockets = st.userSockets := by
  unfold addParticipantStep
  repeat' split
  all_goals rfl

theorem leaveChatStep_userSockets {st : ServerState} {u c : String} :
    (leaveChatStep st u c).1.userSockets = st.userSockets := by
  unfold leaveChatStep
  repeat' split
  all_goals rfl

theorem step_presence_counts (st : ServerState) (e : Event) (v : String) :
    countOccur (Output.statusChange v true) (step st e).2 = statusTrueInc st v e ∧
    countOccur (Output.dbUserWrite v true) (step st e).2 = statusTrueInc st v e ∧
    countOccur (Output.statusChange v false) (step st e).2 = statusFalseInc st v e ∧
    countOccur (Output.dbUserWrite v false) (step st e).2 = statusFalseInc st v e := by
  cases e with
  | connect u s =>
    simp only [step, statusTrueInc, statusFalseInc]
    cases hfu : findUser st.db u with
    | none => simp [connectStep, hfu]
    | some usr =>
      by_cases hv : v = u
      · subst hv
        simp [connectStep, hfu]
      · simp [connectStep, hfu, hv, Ne.symm hv]
  | disconnect u s =>
    simp only [step, statusTrueInc, statusFalseInc]
    cases hus : st.userSockets u with
    | none => simp [disconnectStep, hus]
    | some l =>
      simp only [disconnectStep, hus]
      by_cases he : (l.erase s).isEmpty
      · by_cases hv : v = u
        · subst hv
          simp [he]
        · simp [he, hv, Ne.symm hv]
      · simp [he]
  | sendMessage s c content f =>
    refine ⟨?_, ?_, ?_, ?_⟩ <;>
      exact countOccur_presence_zero (by rfl) sendMessageStep_presence_free
  | typing s c =>
    refine ⟨?_, ?_, ?_, ?_⟩ <;>
      exact countOccur_presence_zero (by rfl) typingStep_presence_free
  | markRead s c f =>
    refine ⟨?_, ?_, ?_, ?_⟩ <;>
      exact countOccur_presence_zero (by rfl) markReadStep_presence_free
  | joinChat s c f =>
    refine ⟨?_, ?_, ?_, ?_⟩ <;>
      exact countOccur_presence_zero (by rfl) joinChatStep_presence_free
  | addParticipantHTTP r c t =>
    refine ⟨?_, ?_, ?_, ?_⟩ <;>
      exact countOccur_presence_zero (by rfl) addParticipantStep_presence_free
  | leaveChatHTTP u c =>
    refine ⟨?_, ?_, ?_, ?_⟩ <;>
      exact countOccur_presence_zero (by rfl) leaveChatStep_presence_free

theorem statusFalseInc_edge {st : ServerState} (hinv : BaseInv st) (v : String) (e : Event) :
    statusFalseInc st v e =
      if liveCount st v ≠ 0 ∧ liveCount (step st e).1 v = 0 then 1 else 0 := by
  cases e with
  | connect u s =>
    simp only [step, statusFalseInc]
    cases hfu : findUser st.db u with
    | none => simp [connectStep, hfu]
    | some usr =>
      by_cases hv : v = u
      · subst hv
        have : liveCount (connectStep st v s).1 v ≠ 0 := by
          simp [connectStep, hfu, liveCount]
          intro hnil
          exact addElem_ne_nil _ _ hnil
        simp [this]
      · have hlv : liveCount (connectStep st u s).1 v = liveCount st v := by
          simp [connectStep, hfu, liveCount, upd_ne _ _ _ hv]
        simp only [hlv]
        by_cases h0 : liveCount st v = 0 <;> simp [h0]
  | disconnect u s =>
    simp only [step, statusFalseInc]
    cases hus : st.userSockets u with
    | none =>
      by_cases hv : v = u
      · subst hv
        have h0 : liveCount st v = 0 := by simp [liveCount, hus]
        simp [h0]
      · have hlv : liveCount (disconnectStep st u s).1 v = liveCount st v := by
          simp [disconnectStep, hus, liveCount]
        simp only [hlv]
        by_cases h0 : liveCount st v = 0 <;> simp [h0]
    | some l =>
      have hvne : v ≠ u → liveCount (disconnectStep st u s).1 v = liveCount st v := by
        intro hv
        simp only [disconnectStep, hus, liveCount]
        split
        · simp [upd_ne _ _ _ hv]
        · simp [upd_ne _ _ _ hv]
      by_cases hv : v = u
      · subst hv
        have hpos : liveCount st v ≠ 0 := by
          have := (hinv.1 v l hus).1
          simp [liveCount, hus]
          simpa using this
        by_cases he : (l.erase s).isEmpty
        · have h0 : liveCount (disconnectStep st v s).1 v = 0 := by
            simp [disconnectStep, hus, he, liveCount]
          have hl : l ≠ [] := (hinv.1 v l hus).1
          simp [disconnectStep, hus, he, hpos, h0, liveCount, hl]
        · have h0 : liveCount (disconnectStep st v s).1 v ≠ 0 := by
            simp only [disconnectStep, hus, liveCount]
            simp only [he, if_false, Bool.false_eq_true]
            simp only [upd_same, Option.getD_some]
            simpa using he
          have hl : l ≠ [] := (hinv.1 v l hus).1
          have hne : l ≠ [s] := by
            intro hh
            exact he (by simp [hh])
          simp [disconnectStep, hus, he, h0, liveCount, hl, hne]
      · simp only [hvne hv]
        by_cases h0 : liveCount st v = 0 <;> simp [hv, h0]
  | sendMessage s c content f =>
    have : liveCount (step st (.sendMessage s c content f)).1 v = liveCount st v := by
      simp [step, liveCount, sendMessageStep_userSockets]
    simp only [statusFalseInc, this]
    by_cases h0 : liveCount st v = 0 <;> simp [h0]
  | typing s c =>
    have : liveCount (step st (.typing s c)).1 v = liveCount st v := by
      simp [step, liveCount, typingStep_userSockets]
    simp only [statusFalseInc, this]
    by_cases h0 : liveCount st v = 0 <;> simp [h0]
  | markRead s c f =>
    have : liveCount (step st (.markRead s c f)).1 v = liveCount st v := by
      simp [step, liveCount, markReadStep_userSockets]
    simp only [statusFalseInc, this]
    by_cases h0 : liveCount st v = 0 <;> simp [h0]
  | joinChat s c f =>
    have : liveCount (step st (.joinChat s c f)).1 v = liveCount st v := by
      simp [step, liveCount, joinChatStep_userSockets]
    simp only [statusFalseInc, this]
    by_cases h0 : liveCount st v = 0 <;> simp [h0]
  | addParticipantHTTP r c t =>
    have : liveCount (step st (.addParticipantHTTP r c t)).1 v = liveCount st v := by
      simp [step, liveCount, addParticipantStep_userSockets]
    simp only [statusFalseInc, this]
    by_cases h0 : liveCount st v = 0 <;> simp [h0]
  | leaveChatHTTP u c =>
    have : liveCount (step st (.leaveChatHTTP u c)).1 v = liveCount st v := by
      simp [step, liveCount, leaveChatStep_userSockets]
    simp only [statusFalseInc, this]
    by_cases h0 : liveCount st v = 0 <;> simp [h0]

theorem run_presence_counts (tr : List Event) :
    ∀ st : ServerState, BaseInv st → ∀ u : String,
    countOccur (Output.statusChange u true) (run st tr).2 = connectEvents st u tr ∧
    countOccur (Output.dbUserWrite u true) (run st tr).2 = connectEvents st u tr ∧
    countOccur (Output.statusChange u false) (run st tr).2 = offlineEdges st u tr ∧
    countOccur (Output.dbUserWrite u false) (run st tr).2 = offlineEdges st u tr := by
  induction tr with
  | nil => intro st _ u; simp [run, connectEvents, offlineEdges]
  | cons e tr ih =>
    intro st hinv u
    obtain ⟨h1, h2, h3, h4⟩ := step_presence_counts st e u
    obtain ⟨g1, g2, g3, g4⟩ := ih (step st e).1 (baseInv_step hinv e) u
    have hedge := statusFalseInc_edge hinv u e
    simp only [run, countOccur_append, connectEvents, offlineEdges]
    refine ⟨?_, ?_, ?_, ?_⟩
    · rw [h1, g1]
    · rw [h2, g2]
    · rw [h3, g3, hedge]
    · rw [h4, g4, hedge]

theorem typingStep_state {st : ServerState} {s c : String} : (typingStep st s c).1 = st := by
  unfold typingStep
  repeat' split
  all_goals rfl

theorem sendMessageStep_connected {st : ServerState} {s c content : String} {f : Option Nat} :
    (sendMessageStep st s c content f).1.connected = st.connected := by
  unfold sendMessageStep
  repeat' split
  all_goals rfl

theorem sendMessageStep_rooms {st : ServerState} {s c content : String} {f : Option Nat} :
    (sendMessageStep st s c content f).1.rooms = st.rooms := by
  unfold sendMessageStep
  repeat' split
  all_goals rfl

theorem markReadStep_connected {st : ServerState} {s c : String} {f : Option Nat} :
    (markReadStep st s c f).1.connected = st.connected := by
  unfold markReadStep
  repeat' split
  all_goals rfl

theorem markReadStep_rooms {st : ServerState} {s c : String} {f : Option Nat} :
    (markReadStep st s c f).1.rooms = st.rooms := by
  unfold markReadStep
  repeat' split
  all_goals rfl

theorem joinChatStep_connected {st : ServerState} {s c : String} {f : Option Nat} :
    (joinChatStep st s c f).1.connected = st.connected := by
  unfold joinChatStep
  repeat' split
  all_goals rfl

theorem addParticipantStep_connected {st : ServerState} {r c t : String} :
    (addParticipantStep st r c t).1.connected = st.connected := by
  unfold addParticipantStep
  repeat' split
  all_goals rfl

theorem addParticipantStep_rooms {st : ServerState} {r c t : String} :
    (addParticipantStep st r c t).1.rooms = st.rooms := by
  unfold addParticipantStep
  repeat' split
  all_goals rfl

theorem leaveChatStep_connected {st : ServerState} {u c : String} :
    (leaveChatStep st u c).1.connected = st.connected := by
  unfold leaveChatStep
  repeat' split
  all_goals rfl

theorem leaveChatStep_rooms {st : ServerState} {u c : String} :
    (leaveChatStep st u c).1.rooms = st.rooms := by
  unfold leaveChatStep
  repeat' split
  all_goals rfl

/-- Consistency of the three in-memory structures on physically well-formed
traces: registered sockets are connected and owned by the registering user,
connected sockets are registered under their owner, and room members are
connected. -/
def ConnInv (st : ServerState) : Prop :=
  (∀ u l, st.userSockets u = some l → ∀ s ∈ l, ∃ snap, st.connected s = some snap ∧ snap.id = u) ∧
  (∀ s snap, st.connected s = some snap → ∃ l, st.userSockets snap.id = some l ∧ s ∈ l) ∧
  (∀ c s, s ∈ st.rooms c → (st.connected s).isSome = true)

theorem connInv_init (db : DB) : ConnInv (initState db) := by
  refine ⟨?_, ?_, ?_⟩
  · intro u l h
    simp [initState] at h
  · intro s snap h
    simp [initState] at h
  · intro c s h
    simp [initState] at h

theorem connInv_of_fields {st st' : ServerState}
    (hc : st'.connected = st.connected) (hu : st'.userSockets = st.userSockets)
    (hr : st'.rooms = st.rooms) (h : ConnInv st) : ConnInv st' := by
  obtain ⟨h1, h2, h3⟩ := h
  refine ⟨?_, ?_, ?_⟩
  · rw [hu, hc]; exact h1
  · rw [hc, hu]; exact h2
  · rw [hr, hc]; exact h3

theorem connInv_step {st : ServerState} (hbase : BaseInv st) (hinv : ConnInv st) {e : Event}
    (hok : eventOK st e = true) : ConnInv (step st e).1 := by
  obtain ⟨h1, h2, h3⟩ := hinv
  cases e with
  | connect u s =>
    have hok' : st.connected s = none := by
      simpa [eventOK, Option.isNone_iff_eq_none] using hok
    simp only [step, connectStep]
    cases hfu : findUser st.db u with
    | none => exact ⟨h1, h2, h3⟩
    | some usr =>
      have husr : usr.id = u := findUser_id hfu
      refine ⟨?_, ?_, ?_⟩
      · intro u' l hl s' hs'
        simp only [upd] at hl
        by_cases hu : u' = u
        · subst hu
          rw [if_pos rfl] at hl
          cases hl
          rcases mem_addElem.1 hs' with rfl | hmem
          · exact ⟨⟨usr.id, usr.name, usr.photoURL⟩, by simp [upd, husr]⟩
          · cases hcur : st.userSockets u' with
            | none => rw [hcur] at hmem; simp at hmem
            | some l0 =>
              rw [hcur] at hmem
              simp only [Option.getD_some] at hmem
              obtain ⟨snap, hsnap, hid⟩ := h1 u' l0 hcur s' hmem
              have hne : s' ≠ s := by
                intro hh
                rw [hh, hok'] at hsnap
                cases hsnap
              exact ⟨snap, by simp [upd, hne, hsnap, hid]⟩
        · rw [if_neg hu] at hl
          obtain ⟨snap, hsnap, hid⟩ := h1 u' l hl s' hs'
          have hne : s' ≠ s := by
            intro hh
            rw [hh, hok'] at hsnap
            cases hsnap
          exact ⟨snap, by simp [upd, hne, hsnap, hid]⟩
      · intro s' snap hs'
        simp only [upd] at hs'
        by_cases hss : s' = s
        · subst hss
          rw [if_pos rfl] at hs'
          cases hs'
          refine ⟨addElem ((st.userSockets u).getD []) s', ?_, ?_⟩
          · simp [upd, husr]
          · simp [mem_addElem]
        · rw [if_neg hss] at hs'
          obtain ⟨l0, hl0, hmem⟩ := h2 s' snap hs'
          by_cases hid : snap.id = u
          · rw [hid] at hl0 ⊢
            refine ⟨addElem ((st.userSockets u).getD []) s, by simp [upd], ?_⟩
            rw [hl0]
            simp [mem_addElem, hmem]
          · exact ⟨l0, by simp [upd, hid, hl0], hmem⟩
      · intro c s' hs'
        simp only at hs'
        by_cases hss : s' = s
        · subst hss
          simp [upd]
        · have hmem : s' ∈ st.rooms c := by
            by_cases hcm : chatMember st.db c u = true
            · rw [if_pos hcm] at hs'
              rcases mem_addElem.1 hs' with rfl | hmem
              · exact absurd rfl hss
              · exact hmem
            · rw [if_neg hcm] at hs'
              exact hs'
          have := h3 c s' hmem
          simpa [upd, hss] using this
  | disconnect u s =>
    have hok' : ∀ snap, st.connected s = some snap → snap.id = u := by
      intro snap hsnap
      simp only [eventOK] at hok
      rw [hsnap] at hok
      simpa using hok
    simp only [step]
    cases hus : st.userSockets u with
    | none =>
      simp only [disconnectStep, hus]
      refine ⟨?_, ?_, ?_⟩
      · intro u' l hl s' hs'
        have hl' : st.userSockets u' = some l := hl
        obtain ⟨snap, hsnap, hid⟩ := h1 u' l hl' s' hs'
        have hne : s' ≠ s := by
          intro hh
          subst hh
          have huu : u' = u := by rw [← hid]; exact hok' snap hsnap
          rw [huu, hus] at hl'
          cases hl'
        exact ⟨snap, by simp [upd, hne, hsnap, hid]⟩
      · intro s' snap hs'
        simp only [upd] at hs'
        by_cases hss : s' = s
        · rw [if_pos hss] at hs'
          cases hs'
        · rw [if_neg hss] at hs'
          exact h2 s' snap hs'
      · intro c s' hs'
        have hs2 : s' ∈ (st.rooms c).erase s := hs'
        have hss : s' ≠ s ∧ s' ∈ st.rooms c := (hbase.2 c).mem_erase_iff.1 hs2
        have := h3 c s' hss.2
        simpa [upd, hss.1] using this
    | some l =>
      have hlwf := hbase.1 u l hus
      simp only [disconnectStep, hus]
      by_cases hemp : (l.erase s).isEmpty
      · simp only [hemp, if_true]
        refine ⟨?_, ?_, ?_⟩
        · intro u' l' hl' s' hs'
          simp only [upd] at hl'
          by_cases hu : u' = u
          · rw [if_pos hu] at hl'
            cases hl'
          · rw [if_neg hu] at hl'
            obtain ⟨snap, hsnap, hid⟩ := h1 u' l' hl' s' hs'
            have hne : s' ≠ s := by
              intro hh
              subst hh
              rw [hok' snap hsnap] at hid
              exact hu hid.symm
            exact ⟨snap, by simp [upd, hne, hsnap, hid]⟩
        · intro s' snap hs'
          simp only [upd] at hs'
          by_cases hss : s' = s
          · rw [if_pos hss] at hs'
            cases hs'
          · rw [if_neg hss] at hs'
            obtain ⟨l0, hl0, hmem⟩ := h2 s' snap hs'
            have hid : snap.id ≠ u := by
              intro hh
              rw [hh, hus] at hl0
              cases hl0
              have : s' ∈ l.erase s := (List.mem_erase_of_ne hss).2 hmem
              rw [List.isEmpty_iff] at hemp
              rw [hemp] at this
              cases this
            exact ⟨l0, by simp [upd, hid, hl0], hmem⟩
        · intro c s' hs'
          have hs2 : s' ∈ (st.rooms c).erase s := hs'
          have hss : s' ≠ s ∧ s' ∈ st.rooms c := (hbase.2 c).mem_erase_iff.1 hs2
          have := h3 c s' hss.2
          simpa [upd, hss.1] using this
      · simp only [hemp, if_false]
        refine ⟨?_, ?_, ?_⟩
        · intro u' l' hl'
          have hl2 : upd st.userSockets u (some (l.erase s)) u' = some l' := hl'
          intro s' hs'
          simp only [upd] at hl2
          by_cases hu : u' = u
          · subst hu
            rw [if_pos rfl] at hl2
            cases hl2
            have hs'' : s' ≠ s ∧ s' ∈ l := hlwf.2.mem_erase_iff.1 hs'
            obtain ⟨snap, hsnap, hid⟩ := h1 u' l hus s' hs''.2
            exact ⟨snap, by simp [upd, hs''.1, hsnap, hid]⟩
          · rw [if_neg hu] at hl2
            obtain ⟨snap, hsnap, hid⟩ := h1 u' l' hl2 s' hs'
            have hne : s' ≠ s := by
              intro hh
              subst hh
              rw [hok' snap hsnap] at hid
              exact hu hid.symm
            exact ⟨snap, by simp [upd, hne, hsnap, hid]⟩
        · intro s' snap hs'
          have hs2 : upd st.connected s none s' = some snap := hs'
          simp only [upd] at hs2
          by_cases hss : s' = s
          · rw [if_pos hss] at hs2
            cases hs2
          · rw [if_neg hss] at hs2
            obtain ⟨l0, hl0, hmem⟩ := h2 s' snap hs2
            by_cases hid : snap.id = u
            · rw [hid] at hl0 ⊢
              rw [hus] at hl0
              cases hl0
              refine ⟨l.erase s, by simp [upd], ?_⟩
              exact (List.mem_erase_of_ne hss).2 hmem
            · exact ⟨l0, by simp [upd, hid, hl0], hmem⟩
        · intro c s' hs'
          have hs2 : s' ∈ (st.rooms c).erase s := hs'
          have hss : s' ≠ s ∧ s' ∈ st.rooms c := (hbase.2 c).mem_erase_iff.1 hs2
          have := h3 c s' hss.2
          simpa [upd, hss.1] using this
  | sendMessage s c content f =>
    exact connInv_of_fields sendMessageStep_connected sendMessageStep_userSockets
      sendMessageStep_rooms ⟨h1, h2, h3⟩
  | typing s c =>
    rw [step, typingStep_state]
    exact ⟨h1, h2, h3⟩
  | markRead s c f =>
    exact connInv_of_fields markReadStep_connected markReadStep_userSockets
      markReadStep_rooms ⟨h1, h2, h3⟩
  | joinChat s c f =>
    simp only [step, joinChatStep]
    cases hcs : st.connected s with
    | none => exact ⟨h1, h2, h3⟩
    | some snap =>
      repeat' split
      all_goals try exact ⟨h1, h2, h3⟩
      refine ⟨h1, h2, ?_⟩
      intro c' s' hs'
      simp only [upd] at hs'
      by_cases hc' : c' = c
      · rw [if_pos hc'] at hs'
        rcases mem_addElem.1 hs' with rfl | hmem
        · rw [hcs]; rfl
        · exact h3 c s' hmem
      · rw [if_neg hc'] at hs'
        exact h3 c' s' hs'
  | addParticipantHTTP r c t =>
    exact connInv_of_fields addParticipantStep_connected addParticipantStep_userSockets
      addParticipantStep_rooms ⟨h1, h2, h3⟩
  | leaveChatHTTP u c =>
    exact connInv_of_fields leaveChatStep_connected leaveChatStep_userSockets
      leaveChatStep_rooms ⟨h1, h2, h3⟩

theorem connInv_run {st : ServerState} (hbase : BaseInv st) (hinv : ConnInv st)
    {tr : List Event} (hok : okTrace st tr = true) : ConnInv (run st tr).1 := by
  induction tr generalizing st with
  | nil => exact hinv
  | cons e tr ih =>
    simp only [okTrace, Bool.and_eq_true] at hok
    exact ih (baseInv_step hbase e) (connInv_step hbase hinv hok.1) hok.2

theorem find?_map_id (f : DBChat → DBChat) (hf : ∀ r, (f r).id = r.id) (l : List DBChat)
    (c : String) :
    ((l.map f).find? (fun r => r.id == c)).isSome = (l.find? (fun r => r.id == c)).isSome := by
  induction l with
  | nil => rfl
  | cons x xs ih =>
    simp only [List.map_cons, List.find?]
    rw [hf x]
    cases hx : (x.id == c) with
    | false => simpa using ih
    | true => rfl

theorem chatMember_setOnline (db : DB) (u : String) (b : Bool) (c v : String) :
    chatMember (setOnline db u b) c v = chatMember db c v := rfl

theorem chatMember_touchChat (db : DB) (c0 c v : String) :
    chatMember (touchChat db c0) c v = chatMember db c v := by
  have h := find?_map_id
    (fun r => if r.id == c0 then { r with lastMessageAt := db.nextMsgId } else r)
    (fun r => by by_cases hr : (r.id == c0) = true <;> simp [hr]) db.chats c
  simp only [chatMember, findChat, touchChat, hasParticipant]
  rw [h]

theorem disconnectStep_rooms {st : ServerState} {u s : String} :
    (disconnectStep st u s).1.rooms = fun c => (st.rooms c).erase s := by
  unfold disconnectStep
  cases st.userSockets u with
  | none => rfl
  | some l => by_cases he : (l.erase s).isEmpty = true <;> simp [he]

theorem disconnectStep_connected {st : ServerState} {u s : String} :
    (disconnectStep st u s).1.connected = upd st.connected s none := by
  unfold disconnectStep
  cases st.userSockets u with
  | none => rfl
  | some l => by_cases he : (l.erase s).isEmpty = true <;> simp [he]

theorem disconnectStep_chatMember {st : ServerState} {u s : String} (c v : String) :
    chatMember (disconnectStep st u s).1.db c v = chatMember st.db c v := by
  unfold disconnectStep
  cases st.userSockets u with
  | none => rfl
  | some l => by_cases he : (l.erase s).isEmpty = true <;> simp [he, chatMember_setOnline]

theorem sendMessageStep_chatMember {st : ServerState} {s c content : String} {f : Option Nat}
    (c' v : String) :
    chatMember (sendMessageStep st s c content f).1.db c' v = chatMember st.db c' v := by
  unfold sendMessageStep
  repeat' split
  all_goals first
    | rfl
    | exact chatMember_touchChat _ c c' v

theorem markReadStep_chatMember {st : ServerState} {s c : String} {f : Option Nat}
    (c' v : String) :
    chatMember (markReadStep st s c f).1.db c' v = chatMember st.db c' v := by
  unfold markReadStep
  repeat' split
  all_goals rfl

/-- Case analysis of the join_chat handler state effect: either the state is
unchanged, or the live membership check passed and the socket was added to
the chat's room. -/
theorem joinChatStep_cases {st : ServerState} {s c : String} {f : Option Nat} :
    (joinChatStep st s c f).1 = st ∨
    (∃ snap, st.connected s = some snap ∧ (findChat st.db c).isSome = true ∧
      hasParticipant st.db c snap.id = true ∧
      (joinChatStep st s c f).1 = { st with rooms := upd st.rooms c (addElem (st.rooms c) s) }) := by
  unfold joinChatStep
  cases hcs : st.connected s with
  | none => exact Or.inl rfl
  | some snap =>
    simp only
    repeat' split
    all_goals try exact Or.inl rfl
    rename_i hchat hpart
    refine Or.inr ⟨snap, rfl, ?_, hpart, rfl⟩
    rename_i val heq
    rw [heq]
    rfl

/-- Room contents coincide with live chat membership: a socket is subscribed
to a chat's room exactly when it is connected and its user currently
participates in that (existing) chat.  This is an invariant of traces
without chat-controller membership mutations. -/
def RoomChar (st : ServerState) : Prop :=
  ∀ c t, t ∈ st.rooms c ↔
    ∃ snap, st.connected t = some snap ∧ chatMember st.db c snap.id = true

theorem roomChar_init (db : DB) : RoomChar (initState db) := by
  intro c t
  simp [initState]

theorem roomChar_step {st : ServerState} (hbase : BaseInv st) (hchar : RoomChar st) {e : Event}
    (hok : eventOK st e = true) (hmm : isMemberEvent e = false) : RoomChar (step st e).1 := by
  cases e with
  | connect u s =>
    have hok' : st.connected s = none := by
      simpa [eventOK, Option.isNone_iff_eq_none] using hok
    simp only [step, connectStep]
    cases hfu : findUser st.db u with
    | none => exact hchar
    | some usr =>
      have husr : usr.id = u := findUser_id hfu
      intro c t
      show (t ∈ if chatMember st.db c u = true then addElem (st.rooms c) s else st.rooms c) ↔
        ∃ snap, upd st.connected s (some ⟨usr.id, usr.name, usr.photoURL⟩) t = some snap ∧
          chatMember (setOnline st.db u true) c snap.id = true
      by_cases hts : t = s
      · subst hts
        have hnotold : t ∉ st.rooms c := by
          intro hmem
          obtain ⟨snap, hsnap, -⟩ := (hchar c t).1 hmem
          rw [hok'] at hsnap
          cases hsnap
        constructor
        · intro hmem
          have hcm : chatMember st.db c u = true := by
            by_contra hcm
            rw [if_neg hcm] at hmem
            exact hnotold hmem
          refine ⟨⟨usr.id, usr.name, usr.photoURL⟩, by simp [upd], ?_⟩
          rw [chatMember_setOnline]
          simpa [husr] using hcm
        · rintro ⟨snap, hsnap, hcm⟩
          rw [upd_same] at hsnap
          cases hsnap
          rw [chatMember_setOnline] at hcm
          simp only [husr] at hcm
          rw [if_pos hcm]
          exact mem_addElem.2 (Or.inl rfl)
      · have hconn : upd st.connected s (some ⟨usr.id, usr.name, usr.photoURL⟩) t =
            st.connected t := upd_ne _ _ _ hts
        have hmem : (t ∈ if chatMember st.db c u = true then addElem (st.rooms c) s
            else st.rooms c) ↔ t ∈ st.rooms c := by
          split
          · rw [mem_addElem]
            simp [hts]
          · exact Iff.rfl
        rw [hmem, hconn, hchar c t]
        constructor
        · rintro ⟨snap, hsnap, hcm⟩
          exact ⟨snap, hsnap, by rw [chatMember_setOnline]; exact hcm⟩
        · rintro ⟨snap, hsnap, hcm⟩
          rw [chatMember_setOnline] at hcm
          exact ⟨snap, hsnap, hcm⟩
  | disconnect u s =>
    simp only [step]
    intro c t
    show t ∈ (disconnectStep st u s).1.rooms c ↔ _
    rw [show (disconnectStep st u s).1.rooms = fun c => (st.rooms c).erase s from
      disconnectStep_rooms]
    constructor
    · intro hmem
      have hm2 : t ≠ s ∧ t ∈ st.rooms c := (hbase.2 c).mem_erase_iff.1 hmem
      obtain ⟨snap, hsnap, hcm⟩ := (hchar c t).1 hm2.2
      refine ⟨snap, ?_, ?_⟩
      · rw [show (disconnectStep st u s).1.connected = upd st.connected s none from
          disconnectStep_connected, upd_ne _ _ _ hm2.1]
        exact hsnap
      · rw [disconnectStep_chatMember]
        exact hcm
    · rintro ⟨snap, hsnap, hcm⟩
      rw [show (disconnectStep st u s).1.connected = upd st.connected s none from
        disconnectStep_connected] at hsnap
      rw [disconnectStep_chatMember] at hcm
      have hts : t ≠ s := by
        intro hh
        rw [hh, upd_same] at hsnap
        cases hsnap
      rw [upd_ne _ _ _ hts] at hsnap
      exact (hbase.2 c).mem_erase_iff.2 ⟨hts, (hchar c t).2 ⟨snap, hsnap, hcm⟩⟩
  | sendMessage s c content f =>
    simp only [step]
    intro c' t
    show t ∈ (sendMessageStep st s c content f).1.rooms c' ↔ _
    rw [show (sendMessageStep st s c content f).1.rooms = st.rooms from sendMessageStep_rooms]
    rw [hchar c' t]
    constructor
    · rintro ⟨snap, hsnap, hcm⟩
      refine ⟨snap, ?_, ?_⟩
      · rw [show (sendMessageStep st s c content f).1.connected = st.connected from
          sendMessageStep_connected]
        exact hsnap
      · rw [sendMessageStep_chatMember]
        exact hcm
    · rintro ⟨snap, hsnap, hcm⟩
      rw [show (sendMessageStep st s c content f).1.connected = st.connected from
        sendMessageStep_connected] at hsnap
      rw [sendMessageStep_chatMember] at hcm
      exact ⟨snap, hsnap, hcm⟩
  | typing s c =>
    rw [step, typingStep_state]
    exact hchar
  | markRead s c f =>
    simp only [step]
    intro c' t
    show t ∈ (markReadStep st s c f).1.rooms c' ↔ _
    rw [show (markReadStep st s c f).1.rooms = st.rooms from markReadStep_rooms]
    rw [hchar c' t]
    constructor
    · rintro ⟨snap, hsnap, hcm⟩
      refine ⟨snap, ?_, ?_⟩
      · rw [show (markReadStep st s c f).1.connected = st.connected from markReadStep_connected]
        exact hsnap
      · rw [markReadStep_chatMember]
        exact hcm
    · rintro ⟨snap, hsnap, hcm⟩
      rw [show (markReadStep st s c f).1.connected = st.connected from
        markReadStep_connected] at hsnap
      rw [markReadStep_chatMember] at hcm
      exact ⟨snap, hsnap, hcm⟩
  | joinChat s c f =>
    rcases @joinChatStep_cases st s c f with heq | ⟨snap, hcs, hchat, hpart, heq⟩
    · show RoomChar (joinChatStep st s c f).1
      rw [heq]
      exact hchar
    · show RoomChar (joinChatStep st s c f).1
      rw [heq]
      intro c' t
      show t ∈ upd st.rooms c (addElem (st.rooms c) s) c' ↔
        ∃ snap', st.connected t = some snap' ∧ chatMember st.db c' snap'.id = true
      by_cases hcc : c' = c
      · subst hcc
        rw [show upd st.rooms c' (addElem (st.rooms c') s) c' = addElem (st.rooms c') s from
          upd_same _ _ _, mem_addElem]
        constructor
        · rintro (rfl | hmem)
          · refine ⟨snap, hcs, ?_⟩
            simp only [chatMember, hchat, hpart, Bool.and_self]
          · exact (hchar c' t).1 hmem
        · rintro ⟨snap', hsnap', hcm'⟩
          by_cases hts : t = s
          · exact Or.inl hts
          · exact Or.inr ((hchar c' t).2 ⟨snap', hsnap', hcm'⟩)
      · rw [upd_ne _ _ _ hcc]
        exact hchar c' t
  | addParticipantHTTP r c t => simp [isMemberEvent] at hmm
  | leaveChatHTTP u c => simp [isMemberEvent] at hmm

theorem roomChar_run {st : ServerState} (hbase : BaseInv st) (hchar : RoomChar st)
    {tr : List Event} (hok : okTrace st tr = true) (hmm : noMemberChange tr = true) :
    RoomChar (run st tr).1 := by
  induction tr generalizing st with
  | nil => exact hchar
  | cons e tr ih =>
    simp only [okTrace, Bool.and_eq_true] at hok
    simp only [noMemberChange, List.all_cons, Bool.and_eq_true, Bool.not_eq_true'] at hmm
    exact ih (baseInv_step hbase e) (roomChar_step hbase hchar hok.1 hmm.1)
      hok.2 (by simp [noMemberChange, hmm.2])

theorem retrievableIn_map_flip (msgs : List Msg) (m : Msg) (cc uu : String)
    (h : msgs.any (fun m' => m'.id == m.id && m'.content == m.content &&
      m'.chatId == m.chatId && m'.userId == m.userId) = true) :
    (msgs.map (fun m' => if m'.chatId == cc && m'.userId != uu && !m'.read
        then { m' with read := true } else m')).any
      (fun m' => m'.id == m.id && m'.content == m.content && m'.chatId == m.chatId &&
        m'.userId == m.userId) = true := by
  induction msgs with
  | nil => exact absurd h (by simp)
  | cons x xs ih =>
    simp only [List.map_cons, List.any_cons, Bool.or_eq_true] at h ⊢
    rcases h with hx | hxs
    · left
      by_cases hcond : (x.chatId == cc && x.userId != uu && !x.read) = true
      · simpa [hcond] using hx
      · simpa [hcond] using hx
    · right
      exact ih hxs

theorem retrievable_step {st : ServerState} (e : Event) (m : Msg)
    (h : retrievable st.db m = true) : retrievable (step st e).1.db m = true := by
  have happ : ∀ (msgs : List Msg) (l2 : List Msg),
      msgs.any (fun m' => m'.id == m.id && m'.content == m.content && m'.chatId == m.chatId &&
        m'.userId == m.userId) = true →
      (msgs ++ l2).any (fun m' => m'.id == m.id && m'.content == m.content &&
        m'.chatId == m.chatId && m'.userId == m.userId) = true := by
    intro msgs l2 hh
    rw [List.any_append, hh]
    simp
  cases e with
  | connect u s =>
    simp only [step, connectStep]
    cases hfu : findUser st.db u
    · exact h
    · exact h
  | disconnect u s =>
    simp only [step]
    unfold disconnectStep
    cases st.userSockets u with
    | none => exact h
    | some l =>
      by_cases he : (l.erase s).isEmpty = true <;> simp only [he, if_true, if_false] <;> exact h
  | sendMessage s c content f =>
    simp only [step]
    unfold sendMessageStep
    repeat' split
    all_goals first
      | exact h
      | exact happ st.db.messages _ h
  | typing s c =>
    rw [step, typingStep_state]
    exact h
  | markRead s c f =>
    simp only [step]
    unfold markReadStep
    repeat' split
    all_goals try exact h
    exact retrievableIn_map_flip st.db.messages m _ _ h
  | joinChat s c f =>
    simp only [step]
    unfold joinChatStep
    repeat' split
    all_goals exact h
  | addParticipantHTTP r c t =>
    simp only [step]
    unfold addParticipantStep
    repeat' split
    all_goals first
      | exact h
      | exact happ st.db.messages _ h
  | leaveChatHTTP u c =>
    simp only [step]
    unfold leaveChatStep
    repeat' split
    all_goals first
      | exact h
      | exact happ _ _ h

/-- Equation for the successful send_message path: sender connected, chat
found, membership confirmed, no persistence failure. -/
theorem sendMessageStep_eq {st : ServerState} {s c content : String} {f : Option Nat}
    {snap : UserInfo} {ch : DBChat}
    (hcs : st.connected s = some snap) (hfc : findChat st.db c = some ch)
    (hp : hasParticipant st.db c snap.id = true)
    (h0 : fails f 0 = false) (h1 : fails f 1 = false) (h2 : fails f 2 = false)
    (h3 : fails f 3 = false) (h4 : fails f 4 = false) :
    sendMessageStep st s c content f =
      ({ st with db := touchChat { st.db with
           messages := st.db.messages ++ [⟨st.db.nextMsgId, content, c, snap.id, false⟩],
           nextMsgId := st.db.nextMsgId + 1 } c },
       (st.rooms c).map (fun t => Output.newMessage t
         ⟨st.db.nextMsgId, content, c, snap.id, false⟩
         ((findUser st.db snap.id).map (fun r => ⟨r.id, r.name, r.photoURL⟩)))) := by
  unfold sendMessageStep
  simp only [hcs, hfc, h0, h1, h2, h3, h4, hp, Bool.false_eq_true, if_false,
    eq_self_iff_true, if_true]
  rfl

theorem newMessage_persisted {st : ServerState} (e : Event) {t : String} {m : Msg}
    {a : Option UserInfo} (hmem : Output.newMessage t m a ∈ (step st e).2) :
    retrievable (step st e).1.db m = true := by
  cases e with
  | connect u s =>
    simp only [step, connectStep] at hmem ⊢
    cases hfu : findUser st.db u <;> rw [hfu] at hmem <;> simp at hmem
  | disconnect u s =>
    simp only [step] at hmem ⊢
    unfold disconnectStep at hmem
    cases hus : st.userSockets u <;> rw [hus] at hmem
    · simp at hmem
    · rename_i l
      by_cases he : (l.erase s).isEmpty = true <;> simp [he] at hmem
  | sendMessage s c content f =>
    simp only [step] at hmem ⊢
    cases hcs : st.connected s with
    | none => simp [sendMessageStep, hcs] at hmem
    | some snap =>
      cases h0 : fails f 0 with
      | true => simp [sendMessageStep, hcs, h0] at hmem
      | false =>
        cases hfc : findChat st.db c with
        | none => simp [sendMessageStep, hcs, h0, hfc] at hmem
        | some ch =>
          cases h1 : fails f 1 with
          | true => simp [sendMessageStep, hcs, h0, hfc, h1] at hmem
          | false =>
            cases hp : hasParticipant st.db c snap.id with
            | false => simp [sendMessageStep, hcs, h0, hfc, h1, hp] at hmem
            | true =>
              cases h2 : fails f 2 with
              | true => simp [sendMessageStep, hcs, h0, hfc, h1, hp, h2] at hmem
              | false =>
                cases h3 : fails f 3 with
                | true => simp [sendMessageStep, hcs, h0, hfc, h1, hp, h2, h3] at hmem
                | false =>
                  cases h4 : fails f 4 with
                  | true => simp [sendMessageStep, hcs, h0, hfc, h1, hp, h2, h3, h4] at hmem
                  | false =>
                    rw [sendMessageStep_eq hcs hfc hp h0 h1 h2 h3 h4] at hmem ⊢
                    simp only [List.mem_map] at hmem
                    obtain ⟨t', -, heq⟩ := hmem
                    injection heq with e1 e2 e3
                    subst e2
                    simp only [retrievable]
                    rw [show (touchChat { st.db with
                        messages := st.db.messages ++
                          [{ id := st.db.nextMsgId, content := content, chatId := c,
                             userId := snap.id, read := false }],
                        nextMsgId := st.db.nextMsgId + 1 } c).messages =
                      st.db.messages ++
                        [{ id := st.db.nextMsgId, content := content, chatId := c,
                           userId := snap.id, read := false }] from rfl]
                    rw [List.any_append]
                    simp
  | typing s c =>
    simp only [step] at hmem
    unfold typingStep at hmem
    repeat' split at hmem
    all_goals simp at hmem
  | markRead s c f =>
    simp only [step] at hmem
    unfold markReadStep at hmem
    repeat' split at hmem
    all_goals simp at hmem
  | joinChat s c f =>
    simp only [step] at hmem
    unfold joinChatStep at hmem
    repeat' split at hmem
    all_goals simp at hmem
  | addParticipantHTTP r c t' =>
    simp only [step] at hmem
    unfold addParticipantStep at hmem
    repeat' split at hmem
    all_goals simp at hmem
  | leaveChatHTTP u c =>
    simp only [step] at hmem
    unfold leaveChatStep at hmem
    repeat' split at hmem
    all_goals simp at hmem

/-- Sample database used to instantiate theorems on concrete inputs: three
users, one group chat C whose participants are u1 and u2 (u3 is not a
member). -/
def sampleDB : DB :=
  { users := [⟨"u1", "Ana", "p1", false⟩, ⟨"u2", "Bob", "p2", false⟩, ⟨"u3", "Eve", "p3", false⟩],
    chats := [⟨"C", true, 0⟩],
    participants := [("C", "u1"), ("C", "u2")],
    messages := [],
    nextMsgId := 0 }

/-- C1: the claim states that user_status_change with isOnline true is
emitted exactly once per 0-to-1 transition of the live-connection count and
that a second concurrent connection emits no additional online event and
does not re-write the persisted online state.  On the physically
well-formed trace in which u1 opens two connections there is exactly one
0-to-1 edge, yet the connection handler emits the online status change
twice and performs the User.update persistence write twice: once per
connection. -/
theorem c1_presence_edges_counterexample :
    okTrace (initState sampleDB) [Event.connect "u1" "s1", Event.connect "u1" "s2"] = true ∧
    onlineEdges (initState sampleDB) "u1" [Event.connect "u1" "s1", Event.connect "u1" "s2"] = 1 ∧
    countOccur (Output.statusChange "u1" true)
      (runOut sampleDB [Event.connect "u1" "s1", Event.connect "u1" "s2"]) = 2 ∧
    countOccur (Output.dbUserWrite "u1" true)
      (runOut sampleDB [Event.connect "u1" "s1", Event.connect "u1" "s2"]) = 2 := by
  refine ⟨by decide, by decide, by decide, by decide⟩

/-- C1 (amended): across any event sequence, the server emits
user_status_change with isOnline true (and performs the corresponding
persistence write) exactly once per accepted connection event of the
identity, not once per 0-to-1 edge; it emits user_status_change with
isOnline false (and the corresponding persistence write) exactly once per
1-to-0 transition of the identity's live-connection count, so closing a
non-last connection emits nothing. -/
theorem c1_presence_emission (db : DB) (tr : List Event) (u : String) :
    countOccur (Output.statusChange u true) (runOut db tr) = connectEvents (initState db) u tr ∧
    countOccur (Output.dbUserWrite u true) (runOut db tr) = connectEvents (initState db) u tr ∧
    countOccur (Output.statusChange u false) (runOut db tr) = offlineEdges (initState db) u tr ∧
    countOccur (Output.dbUserWrite u false) (runOut db tr) = offlineEdges (initState db) u tr :=
  run_presence_counts tr (initState db) (baseInv_init db) u

/-- C2: whenever a new_message event is emitted by a step, the message
record is already present in the database of the post-step state (the
handler persists via Message.create strictly before broadcasting, and every
failure injection that prevents persistence also prevents the broadcast);
moreover a record, once persisted, remains retrievable after any further
event sequence. -/
theorem c2_broadcast_after_persist :
    (∀ (st : ServerState) (e : Event) (t : String) (m : Msg) (a : Option UserInfo),
      Output.newMessage t m a ∈ (step st e).2 → retrievable (step st e).1.db m = true) ∧
    (∀ (st : ServerState) (tr : List Event) (m : Msg),
      retrievable st.db m = true → retrievable (run st tr).1.db m = true) := by
  constructor
  · intro st e t m a hmem
    exact newMessage_persisted e hmem
  · intro st tr m h
    induction tr generalizing st with
    | nil => exact h
    | cons e tr ih => exact ih (step st e).1 (retrievable_step e m h)

/-- Witness for C2 on a concrete run: u1 and u2 connect, u1 sends "hola" to
chat C; the broadcast message with id 0 is retrievable in the post-step
database and stays retrievable after u1 disconnects. -/
theorem c2_broadcast_after_persist_witness :
    retrievable (step (runState sampleDB [Event.connect "u1" "s1", Event.connect "u2" "s2"])
        (Event.sendMessage "s1" "C" "hola" none)).1.db
      ⟨0, "hola", "C", "u1", false⟩ = true ∧
    retrievable (run (step (runState sampleDB [Event.connect "u1" "s1", Event.connect "u2" "s2"])
        (Event.sendMessage "s1" "C" "hola" none)).1 [Event.disconnect "u1" "s1"]).1.db
      ⟨0, "hola", "C", "u1", false⟩ = true := by
  constructor
  · exact c2_broadcast_after_persist.1
      (runState sampleDB [Event.connect "u1" "s1", Event.connect "u2" "s2"])
      (Event.sendMessage "s1" "C" "hola" none) "s2" ⟨0, "hola", "C", "u1", false⟩
      (some ⟨"u1", "Ana", "p1"⟩) (by decide)
  · exact c2_broadcast_after_persist.2
      (step (runState sampleDB [Event.connect "u1" "s1", Event.connect "u2" "s2"])
        (Event.sendMessage "s1" "C" "hola" none)).1
      [Event.disconnect "u1" "s1"] ⟨0, "hola", "C", "u1", false⟩ (by decide)

/-- C9: processing a disconnect for a connection id that is not currently
registered for its identity leaves the server state unchanged (session
registry, rooms, connected set and database) and produces no output at
all: no status event, no persistence write, no error. -/
theorem c9_disconnect_noop (db : DB) (tr : List Event) (u s : String)
    (hok : okTrace (initState db) tr = true)
    (hev : eventOK (runState db tr) (Event.disconnect u s) = true)
    (hnr : s ∉ ((runState db tr).userSockets u).getD []) :
    step (runState db tr) (Event.disconnect u s) = (runState db tr, []) := by
  have hbase : BaseInv (runState db tr) := baseInv_run (baseInv_init db) tr
  have hconn : ConnInv (runState db tr) := connInv_run (baseInv_init db) (connInv_init db) hok
  have hcs : (runState db tr).connected s = none := by
    cases hcsv : (runState db tr).connected s with
    | none => rfl
    | some snap =>
      exfalso
      have hid : snap.id = u := by
        simp only [eventOK, hcsv] at hev
        simpa using hev
      obtain ⟨l, hl, hmem⟩ := hconn.2.1 s snap hcsv
      rw [hid] at hl
      rw [hl] at hnr
      exact hnr hmem
  have hrooms : ∀ c, s ∉ (runState db tr).rooms c := by
    intro c hm
    have := hconn.2.2 c s hm
    rw [hcs] at this
    cases this
  simp only [step]
  unfold disconnectStep
  cases hus : (runState db tr).userSockets u with
  | none =>
    have hA : ({ runState db tr with
        connected := upd (runState db tr).connected s none,
        rooms := fun c => ((runState db tr).rooms c).erase s } : ServerState) =
        runState db tr := by
      apply ServerState.ext'
      · intro t
        by_cases hts : t = s
        · subst hts
          simp [upd, hcs]
        · exact upd_ne _ _ _ hts
      · intro v
        rfl
      · intro c
        exact List.erase_of_not_mem (hrooms c)
      · rfl
    show (({ runState db tr with
        connected := upd (runState db tr).connected s none,
        rooms := fun c => ((runState db tr).rooms c).erase s } : ServerState),
        ([] : List Output)) = (runState db tr, [])
    rw [hA]
  | some l =>
    have hsl : s ∉ l := by
      rw [hus] at hnr
      simpa using hnr
    have herase : l.erase s = l := List.erase_of_not_mem hsl
    have hne : l ≠ [] := (hbase.1 u l hus).1
    have hA : ({ runState db tr with
        connected := upd (runState db tr).connected s none,
        rooms := fun c => ((runState db tr).rooms c).erase s,
        userSockets := upd (runState db tr).userSockets u (some l) } : ServerState) =
        runState db tr := by
      apply ServerState.ext'
      · intro t
        by_cases hts : t = s
        · subst hts
          simp [upd, hcs]
        · exact upd_ne _ _ _ hts
      · intro v
        by_cases hv : v = u
        · subst hv
          simp [upd, hus]
        · exact upd_ne _ _ _ hv
      · intro c
        exact List.erase_of_not_mem (hrooms c)
      · rfl
    have hif : (l.erase s).isEmpty = false := by
      rw [herase]
      cases hl : l with
      | nil => exact absurd hl hne
      | cons a as => rfl
    show ((if (l.erase s).isEmpty = true then _ else _ : ServerState × List Output)) =
      (runState db tr, [])
    rw [hif]
    show (({ runState db tr with
        connected := upd (runState db tr).connected s none,
        rooms := fun c => ((runState db tr).rooms c).erase s,
        userSockets := upd (runState db tr).userSockets u (some (l.erase s)) } : ServerState),
        ([] : List Output)) = (runState db tr, [])
    rw [herase, hA]

/-- Witness for C9: after u1 connects on socket s1, a disconnect for the
unregistered socket id s9 is a no-op. -/
theorem c9_disconnect_noop_witness :
    step (runState sampleDB [Event.connect "u1" "s1"]) (Event.disconnect "u1" "s9") =
      (runState sampleDB [Event.connect "u1" "s1"], []) :=
  c9_disconnect_noop sampleDB [Event.connect "u1" "s1"] "u1" "s9"
    (by decide) (by decide) (by decide)

/-- C10: on physically well-formed traces the userSockets map never holds
an empty socket set, an identity has an entry exactly when some connected
socket authenticated as it, and presence read from map membership agrees
with presence read from the live-connection count. -/
theorem c10_registry_iff_connections (db : DB) (tr : List Event) (u : String)
    (hok : okTrace (initState db) tr = true) :
    (∀ l, (runState db tr).userSockets u = some l → l ≠ []) ∧
    (((runState db tr).userSockets u).isSome = true ↔
      ∃ s snap, (runState db tr).connected s = some snap ∧ snap.id = u) ∧
    (((runState db tr).userSockets u).isSome = true ↔ liveCount (runState db tr) u ≠ 0) := by
  have hbase : BaseInv (runState db tr) := baseInv_run (baseInv_init db) tr
  have hconn : ConnInv (runState db tr) := connInv_run (baseInv_init db) (connInv_init db) hok
  refine ⟨?_, ?_, ?_⟩
  · intro l hl
    exact (hbase.1 u l hl).1
  · constructor
    · intro hs
      obtain ⟨l, hl⟩ := Option.isSome_iff_exists.1 hs
      obtain ⟨s, hsmem⟩ := List.exists_mem_of_ne_nil l (hbase.1 u l hl).1
      obtain ⟨snap, hsnap, hid⟩ := hconn.1 u l hl s hsmem
      exact ⟨s, snap, hsnap, hid⟩
    · rintro ⟨s, snap, hsnap, hid⟩
      obtain ⟨l, hl, -⟩ := hconn.2.1 s snap hsnap
      rw [hid] at hl
      rw [hl]
      rfl
  · constructor
    · intro hs
      obtain ⟨l, hl⟩ := Option.isSome_iff_exists.1 hs
      have hne : l ≠ [] := (hbase.1 u l hl).1
      simp [liveCount, hl]
      exact hne
    · intro hlc
      cases hl : (runState db tr).userSockets u with
      | none =>
        exfalso
        apply hlc
        simp [liveCount, hl]
      | some l => rfl

/-- Witness for C10 after a concrete two-connection trace of u1. -/
theorem c10_registry_iff_connections_witness :
    (∀ l, (runState sampleDB [Event.connect "u1" "s1", Event.connect "u1" "s2"]).userSockets "u1" =
      some l → l ≠ []) ∧
    (((runState sampleDB [Event.connect "u1" "s1",
        Event.connect "u1" "s2"]).userSockets "u1").isSome = true ↔
      ∃ s snap, (runState sampleDB [Event.connect "u1" "s1",
        Event.connect "u1" "s2"]).connected s = some snap ∧ snap.id = "u1") ∧
    (((runState sampleDB [Event.connect "u1" "s1",
        Event.connect "u1" "s2"]).userSockets "u1").isSome = true ↔
      liveCount (runState sampleDB [Event.connect "u1" "s1", Event.connect "u1" "s2"]) "u1" ≠ 0) :=
  c10_registry_iff_connections sampleDB [Event.connect "u1" "s1", Event.connect "u1" "s2"] "u1"
    (by decide)

/-- C4: a send_message from a connected sender who is not a participant of
the existing target chat produces exactly one error event to the
originating connection and leaves the entire server state (rooms, registry,
database) unchanged, for every failure injection: no session receives a
new_message and nothing is persisted. -/
theorem c4_send_nonmember_rejected (st : ServerState) (s c content : String) (f : Option Nat)
    (snap : UserInfo) (ch : DBChat)
    (hcs : st.connected s = some snap) (hfc : findChat st.db c = some ch)
    (hp : hasParticipant st.db c snap.id = false) :
    ∃ msg, step st (Event.sendMessage s c content f) = (st, [Output.errorEvt s msg]) := by
  simp only [step]
  unfold sendMessageStep
  simp only [hcs, hfc, hp, Bool.false_eq_true, if_false]
  by_cases h0 : fails f 0 = true
  · rw [if_pos h0]
    exact ⟨_, rfl⟩
  · rw [if_neg h0]
    by_cases h1 : fails f 1 = true
    · rw [if_pos h1]
      exact ⟨_, rfl⟩
    · rw [if_neg h1]
      exact ⟨_, rfl⟩

/-- Witness for C4: connected non-member u3 sends to chat C and gets a
single error with no state change. -/
theorem c4_send_nonmember_rejected_witness :
    ∃ msg, step (runState sampleDB [Event.connect "u3" "s3"])
      (Event.sendMessage "s3" "C" "hola" none) =
      (runState sampleDB [Event.connect "u3" "s3"], [Output.errorEvt "s3" msg]) :=
  c4_send_nonmember_rejected (runState sampleDB [Event.connect "u3" "s3"]) "s3" "C" "hola" none
    ⟨"u3", "Eve", "p3"⟩ ⟨"C", true, 0⟩ (by decide) (by decide) (by decide)

/-- C8: the claim states that every persistence failure of send_message,
mark_read and join_chat is surfaced as an error to the originating
connection.  The mark_read handler's catch only logs: injecting a failure
into its Message.update call produces no output whatsoever on the whole
run, in particular no error event. -/
theorem c8_markread_failure_counterexample :
    runOut sampleDB [Event.connect "u1" "s1", Event.markRead "s1" "C" (some 0)] =
      [Output.dbUserWrite "u1" true, Output.statusChange "u1" true] := by
  decide

/-- C8 (amended): a persistence failure during send_message or join_chat is
surfaced as exactly one error event to the originating connection, nothing
is broadcast to any other session, and the connection stays registered and
subscribed (connected set, registry and rooms unchanged; effects of
persistence calls that completed before the failing one remain).  A
persistence failure during mark_read, however, is only logged: the state is
unchanged and nothing at all is emitted, not even an error to the sender. -/
theorem c8_persistence_failure :
    (∀ (st : ServerState) (s c content : String) (k : Nat) (ch : DBChat) (snap : UserInfo),
      st.connected s = some snap → k ≤ 4 →
      (1 ≤ k → findChat st.db c = some ch) →
      (2 ≤ k → hasParticipant st.db c snap.id = true) →
      (step st (Event.sendMessage s c content (some k))).2 =
        [Output.errorEvt s "Error al enviar mensaje"] ∧
      (step st (Event.sendMessage s c content (some k))).1.connected = st.connected ∧
      (step st (Event.sendMessage s c content (some k))).1.userSockets = st.userSockets ∧
      (step st (Event.sendMessage s c content (some k))).1.rooms = st.rooms) ∧
    (∀ (st : ServerState) (s c : String) (k : Nat) (ch : DBChat) (snap : UserInfo),
      st.connected s = some snap → k ≤ 1 →
      (1 ≤ k → findChat st.db c = some ch) →
      step st (Event.joinChat s c (some k)) = (st, [Output.errorEvt s "Error al unirse al chat"])) ∧
    (∀ (st : ServerState) (s c : String) (snap : UserInfo),
      st.connected s = some snap →
      step st (Event.markRead s c (some 0)) = (st, [])) := by
  refine ⟨?_, ?_, ?_⟩
  · intro st s c content k ch snap hcs hk hchat hpart
    interval_cases k
    · refine ⟨?_, ?_, ?_, ?_⟩ <;> simp [step, sendMessageStep, hcs, fails]
    · have hch := hchat (by norm_num)
      refine ⟨?_, ?_, ?_, ?_⟩ <;> simp [step, sendMessageStep, hcs, hch, fails]
    · have hch := hchat (by norm_num)
      have hpp := hpart (by norm_num)
      refine ⟨?_, ?_, ?_, ?_⟩ <;> simp [step, sendMessageStep, hcs, hch, hpp, fails]
    · have hch := hchat (by norm_num)
      have hpp := hpart (by norm_num)
      refine ⟨?_, ?_, ?_, ?_⟩ <;> simp [step, sendMessageStep, hcs, hch, hpp, fails]
    · have hch := hchat (by norm_num)
      have hpp := hpart (by norm_num)
      refine ⟨?_, ?_, ?_, ?_⟩ <;> simp [step, sendMessageStep, hcs, hch, hpp, fails]
  · intro st s c k ch snap hcs hk hchat
    interval_cases k
    · simp [step, joinChatStep, hcs, fails]
    · have hch := hchat (by norm_num)
      simp [step, joinChatStep, hcs, hch, fails]
  · intro st s c snap hcs
    simp [step, markReadStep, hcs, fails]

/-- Witness for C8: concrete failing send (at the chat.save call, index 3),
failing join (at Chat.findByPk, index 0) and failing mark_read. -/
theorem c8_persistence_failure_witness :
    ((step (runState sampleDB [Event.connect "u1" "s1"])
        (Event.sendMessage "s1" "C" "hola" (some 3))).2 =
      [Output.errorEvt "s1" "Error al enviar mensaje"] ∧
      (step (runState sampleDB [Event.connect "u1" "s1"])
        (Event.sendMessage "s1" "C" "hola" (some 3))).1.connected =
        (runState sampleDB [Event.connect "u1" "s1"]).connected ∧
      (step (runState sampleDB [Event.connect "u1" "s1"])
        (Event.sendMessage "s1" "C" "hola" (some 3))).1.userSockets =
        (runState sampleDB [Event.connect "u1" "s1"]).userSockets ∧
      (step (runState sampleDB [Event.connect "u1" "s1"])
        (Event.sendMessage "s1" "C" "hola" (some 3))).1.rooms =
        (runState sampleDB [Event.connect "u1" "s1"]).rooms) ∧
    step (runState sampleDB [Event.connect "u1" "s1"]) (Event.joinChat "s1" "C" (some 0)) =
      (runState sampleDB [Event.connect "u1" "s1"],
        [Output.errorEvt "s1" "Error al unirse al chat"]) ∧
    step (runState sampleDB [Event.connect "u1" "s1"]) (Event.markRead "s1" "C" (some 0)) =
      (runState sampleDB [Event.connect "u1" "s1"], []) :=
  ⟨c8_persistence_failure.1 (runState sampleDB [Event.connect "u1" "s1"]) "s1" "C" "hola" 3
      ⟨"C", true, 0⟩ ⟨"u1", "Ana", "p1"⟩ (by decide) (by norm_num)
      (fun _ => by decide) (fun _ => by decide),
    c8_persistence_failure.2.1 (runState sampleDB [Event.connect "u1" "s1"]) "s1" "C" 0
      ⟨"C", true, 0⟩ ⟨"u1", "Ana", "p1"⟩ (by decide) (by norm_num) (fun h => by cases h),
    c8_persistence_failure.2.2 (runState sampleDB [Event.connect "u1" "s1"]) "s1" "C"
      ⟨"u1", "Ana", "p1"⟩ (by decide)⟩

/-- C5: the claim states that typing is authorized against chat membership
and that a non-member's typing event is not published to anyone.  The
typing handler has no membership check: on a physically well-formed trace
where non-member u3 sends typing for chat C, member u1's session receives
user_typing carrying u3's identity. -/
theorem c5_typing_counterexample :
    hasParticipant (runState sampleDB [Event.connect "u1" "s1", Event.connect "u3" "s3",
      Event.typing "s3" "C"]).db "C" "u3" = false ∧
    Output.userTyping "s1" "C" "u3" "Eve" ∈
      runOut sampleDB [Event.connect "u1" "s1", Event.connect "u3" "s3",
        Event.typing "s3" "C"] := by
  refine ⟨by decide, by decide⟩

/-- C5 (amended): a typing event from any connected sender is relayed,
without any membership authorization, as user_typing carrying the sender's
id and authentication-time name to every socket currently subscribed to the
chat's room except the sender's own socket, each exactly once; the state is
unchanged.  Non-member senders are relayed all the same. -/
theorem c5_typing_relay (db : DB) (tr : List Event) (s c : String) (snap : UserInfo)
    (hcs : (runState db tr).connected s = some snap) :
    (step (runState db tr) (Event.typing s c)).1 = runState db tr ∧
    (step (runState db tr) (Event.typing s c)).2 =
      (((runState db tr).rooms c).filter (fun t => t ≠ s)).map
        (fun t => Output.userTyping t c snap.id snap.name) ∧
    (∀ t, countOccur (Output.userTyping t c snap.id snap.name)
        (step (runState db tr) (Event.typing s c)).2 =
      if t ∈ (runState db tr).rooms c ∧ t ≠ s then 1 else 0) := by
  have hbase : BaseInv (runState db tr) := baseInv_run (baseInv_init db) tr
  have hout : (step (runState db tr) (Event.typing s c)).2 =
      (((runState db tr).rooms c).filter (fun t => t ≠ s)).map
        (fun t => Output.userTyping t c snap.id snap.name) := by
    simp [step, typingStep, hcs]
  refine ⟨by simp [step, typingStep_state], hout, ?_⟩
  intro t
  rw [hout]
  have hinj : ∀ x y : String, (fun t' => Output.userTyping t' c snap.id snap.name) x =
      (fun t' => Output.userTyping t' c snap.id snap.name) y → x = y := by
    intro x y h
    injection h
  rw [countOccur_map_inj hinj]
  have hnd : (((runState db tr).rooms c).filter (fun t' => t' ≠ s)).Nodup :=
    (hbase.2 c).filter _
  by_cases hin : t ∈ (runState db tr).rooms c ∧ t ≠ s
  · rw [if_pos hin]
    exact countOccur_eq_one_of_nodup hnd (List.mem_filter.2 ⟨hin.1, by simp [hin.2]⟩)
  · rw [if_neg hin]
    refine countOccur_eq_zero_of_not_mem ?_
    intro hmem
    rcases List.mem_filter.1 hmem with ⟨h1, h2⟩
    exact hin ⟨h1, by simpa using h2⟩

/-- Witness for C5: non-member u3's typing for chat C is relayed to the
subscribed socket s1 exactly once. -/
theorem c5_typing_relay_witness :
    countOccur (Output.userTyping "s1" "C" "u3" "Eve")
      (step (runState sampleDB [Event.connect "u1" "s1", Event.connect "u3" "s3"])
        (Event.typing "s3" "C")).2 =
      if "s1" ∈ (runState sampleDB [Event.connect "u1" "s1",
        Event.connect "u3" "s3"]).rooms "C" ∧ "s1" ≠ "s3" then 1 else 0 :=
  (c5_typing_relay sampleDB [Event.connect "u1" "s1", Event.connect "u3" "s3"] "s3" "C"
    ⟨"u3", "Eve", "p3"⟩ (by decide)).2.2 "s1"

/-- C6: the claim states that a denied join_chat leaves the connection not
subscribed to the chat's broadcast group.  On the trace where u1 connects
(auto-joining room C as a member), leaves chat C through the chat
controller, and then sends join_chat, the re-check correctly denies with an
error, but the connection is still subscribed to C's room from
connect time: the denial does not unsubscribe it. -/
theorem c6_join_counterexample :
    Output.errorEvt "s1" "No tienes acceso a este chat" ∈
      runOut sampleDB [Event.connect "u1" "s1", Event.leaveChatHTTP "u1" "C",
        Event.joinChat "s1" "C" none] ∧
    hasParticipant (runState sampleDB [Event.connect "u1" "s1", Event.leaveChatHTTP "u1" "C",
      Event.joinChat "s1" "C" none]).db "C" "u1" = false ∧
    "s1" ∈ (runState sampleDB [Event.connect "u1" "s1", Event.leaveChatHTTP "u1" "C",
      Event.joinChat "s1" "C" none]).rooms "C" := by
  refine ⟨by decide, by decide, by decide⟩

/-- C6 (amended): join_chat re-validates with live database queries
(Chat.findByPk and chat.hasParticipant against the current state): if the
chat does not exist or the sender is no longer a member, the sender gets
exactly one error and the handler changes nothing — in particular it adds
no subscription, though a subscription established earlier persists; if the
sender is a member, the handler subscribes the socket to the chat's room
and emits nothing, leaving every other room and all other state
unchanged. -/
theorem c6_join_live_recheck (st : ServerState) (s c : String) (snap : UserInfo)
    (hcs : st.connected s = some snap) :
    (findChat st.db c = none →
      step st (Event.joinChat s c none) = (st, [Output.errorEvt s "Chat no encontrado"])) ∧
    (∀ ch, findChat st.db c = some ch → hasParticipant st.db c snap.id = false →
      step st (Event.joinChat s c none) =
        (st, [Output.errorEvt s "No tienes acceso a este chat"])) ∧
    (∀ ch, findChat st.db c = some ch → hasParticipant st.db c snap.id = true →
      (step st (Event.joinChat s c none)).2 = [] ∧
      s ∈ (step st (Event.joinChat s c none)).1.rooms c ∧
      (∀ c', c' ≠ c → (step st (Event.joinChat s c none)).1.rooms c' = st.rooms c') ∧
      (step st (Event.joinChat s c none)).1.connected = st.connected ∧
      (step st (Event.joinChat s c none)).1.userSockets = st.userSockets ∧
      (step st (Event.joinChat s c none)).1.db = st.db) := by
  refine ⟨?_, ?_, ?_⟩
  · intro hfc
    simp [step, joinChatStep, hcs, hfc, fails]
  · intro ch hfc hp
    simp [step, joinChatStep, hcs, hfc, hp, fails]
  · intro ch hfc hp
    refine ⟨?_, ?_, ?_, ?_, ?_, ?_⟩
    · simp [step, joinChatStep, hcs, hfc, hp, fails]
    · simp [step, joinChatStep, hcs, hfc, hp, fails, upd, mem_addElem]
    · intro c' hcc
      simp [step, joinChatStep, hcs, hfc, hp, fails, upd, hcc]
    · simp [step, joinChatStep, hcs, hfc, hp, fails]
    · simp [step, joinChatStep, hcs, hfc, hp, fails]
    · simp [step, joinChatStep, hcs, hfc, hp, fails]

/-- Witness for C6: after u1 leaves chat C, the join_chat re-check denies
with exactly one error and changes nothing. -/
theorem c6_join_live_recheck_witness :
    step (runState sampleDB [Event.connect "u1" "s1", Event.leaveChatHTTP "u1" "C"])
      (Event.joinChat "s1" "C" none) =
      (runState sampleDB [Event.connect "u1" "s1", Event.leaveChatHTTP "u1" "C"],
        [Output.errorEvt "s1" "No tienes acceso a este chat"]) :=
  (c6_join_live_recheck (runState sampleDB [Event.connect "u1" "s1", Event.leaveChatHTTP "u1" "C"])
    "s1" "C" ⟨"u1", "Ana", "p1"⟩ (by decide)).2.1 ⟨"C", true, 0⟩ (by decide) (by decide)

/-- C7: the claim states that every other member's connected session
receives exactly one messages_read.  On the physically well-formed trace
where u3 connects and is then added to group chat C by u1, u3 is a member
with a connected session when u1 sends mark_read, yet u3's session receives
no messages_read (its socket never joined C's room), while u2's
connect-time-subscribed session receives one. -/
theorem c7_mark_read_counterexample :
    hasParticipant (runState sampleDB [Event.connect "u1" "s1", Event.connect "u2" "s2",
      Event.connect "u3" "s3", Event.addParticipantHTTP "u1" "C" "u3",
      Event.markRead "s1" "C" none]).db "C" "u3" = true ∧
    ((runState sampleDB [Event.connect "u1" "s1", Event.connect "u2" "s2",
      Event.connect "u3" "s3", Event.addParticipantHTTP "u1" "C" "u3",
      Event.markRead "s1" "C" none]).connected "s3").isSome = true ∧
    countOccur (Output.messagesRead "s3" "C" "u1")
      (runOut sampleDB [Event.connect "u1" "s1", Event.connect "u2" "s2",
        Event.connect "u3" "s3", Event.addParticipantHTTP "u1" "C" "u3",
        Event.markRead "s1" "C" none]) = 0 ∧
    countOccur (Output.messagesRead "s2" "C" "u1")
      (runOut sampleDB [Event.connect "u1" "s1", Event.connect "u2" "s2",
        Event.connect "u3" "s3", Event.addParticipantHTTP "u1" "C" "u3",
        Event.markRead "s1" "C" none]) = 1 := by
  refine ⟨by decide, by decide, by decide, by decide⟩

/-- C7 (amended): for a mark_read from a member, every previously-unread
message of the chat not authored by the sender becomes read in storage
(the update is exactly the SQL where-clause map, so afterwards no unread
foreign message remains in the chat), and messages_read{chatId, userId} is
delivered exactly once to every socket currently subscribed to the chat's
room other than the originating socket — which receives nothing.  On
membership-mutation-free well-formed traces the subscribed sockets other
than the sender are exactly the connected sessions of the other members, so
each such session receives exactly one messages_read. -/
theorem c7_mark_read_room_fanout (db0 : DB) (tr : List Event) (s c : String) (snap : UserInfo)
    (hcs : (runState db0 tr).connected s = some snap)
    (_hp : hasParticipant (runState db0 tr).db c snap.id = true) :
    (step (runState db0 tr) (Event.markRead s c none)).1.db.messages =
      (runState db0 tr).db.messages.map (fun m =>
        if m.chatId == c && m.userId != snap.id && !m.read then { m with read := true } else m) ∧
    (∀ m ∈ (step (runState db0 tr) (Event.markRead s c none)).1.db.messages,
      m.chatId = c → m.userId ≠ snap.id → m.read = true) ∧
    (step (runState db0 tr) (Event.markRead s c none)).2 =
      (((runState db0 tr).rooms c).filter (fun t => t ≠ s)).map
        (fun t => Output.messagesRead t c snap.id) ∧
    (∀ t, countOccur (Output.messagesRead t c snap.id)
        (step (runState db0 tr) (Event.markRead s c none)).2 =
      if t ∈ (runState db0 tr).rooms c ∧ t ≠ s then 1 else 0) ∧
    countOccur (Output.messagesRead s c snap.id)
      (step (runState db0 tr) (Event.markRead s c none)).2 = 0 ∧
    (okTrace (initState db0) tr = true → noMemberChange tr = true →
      ∀ t snap', (runState db0 tr).connected t = some snap' →
        chatMember (runState db0 tr).db c snap'.id = true → t ≠ s →
        countOccur (Output.messagesRead t c snap.id)
          (step (runState db0 tr) (Event.markRead s c none)).2 = 1) := by
  have hbase : BaseInv (runState db0 tr) := baseInv_run (baseInv_init db0) tr
  have hmsgs : (step (runState db0 tr) (Event.markRead s c none)).1.db.messages =
      (runState db0 tr).db.messages.map (fun m =>
        if m.chatId == c && m.userId != snap.id && !m.read then { m with read := true }
        else m) := by
    simp [step, markReadStep, hcs, fails]
  have hout : (step (runState db0 tr) (Event.markRead s c none)).2 =
      (((runState db0 tr).rooms c).filter (fun t => t ≠ s)).map
        (fun t => Output.messagesRead t c snap.id) := by
    simp [step, markReadStep, hcs, fails]
  have hcount : ∀ t, countOccur (Output.messagesRead t c snap.id)
      (step (runState db0 tr) (Event.markRead s c none)).2 =
      if t ∈ (runState db0 tr).rooms c ∧ t ≠ s then 1 else 0 := by
    intro t
    rw [hout]
    have hinj : ∀ x y : String, (fun t' => Output.messagesRead t' c snap.id) x =
        (fun t' => Output.messagesRead t' c snap.id) y → x = y := by
      intro x y h
      injection h
    rw [countOccur_map_inj hinj]
    have hnd : (((runState db0 tr).rooms c).filter (fun t' => t' ≠ s)).Nodup :=
      (hbase.2 c).filter _
    by_cases hin : t ∈ (runState db0 tr).rooms c ∧ t ≠ s
    · rw [if_pos hin]
      exact countOccur_eq_one_of_nodup hnd (List.mem_filter.2 ⟨hin.1, by simp [hin.2]⟩)
    · rw [if_neg hin]
      refine countOccur_eq_zero_of_not_mem ?_
      intro hmem
      rcases List.mem_filter.1 hmem with ⟨h1, h2⟩
      exact hin ⟨h1, by simpa using h2⟩
  refine ⟨hmsgs, ?_, hout, hcount, ?_, ?_⟩
  · intro m hm hchat hauthor
    rw [hmsgs] at hm
    rcases List.mem_map.1 hm with ⟨m0, hm0, heq⟩
    by_cases hcond : (m0.chatId == c && m0.userId != snap.id && !m0.read) = true
    · rw [if_pos hcond] at heq
      rw [← heq]
    · rw [if_neg hcond] at heq
      subst heq
      simp only [Bool.and_eq_true, Bool.not_eq_true', bne_iff_ne, beq_iff_eq] at hcond
      push_neg at hcond
      simpa using hcond ⟨hchat, hauthor⟩
  · rw [hcount s]
    simp
  · intro hok hmm t snap' hsnap' hcm hts
    have hchar : RoomChar (runState db0 tr) :=
      roomChar_run (baseInv_init db0) (roomChar_init db0) hok hmm
    have hmem : t ∈ (runState db0 tr).rooms c := (hchar c t).2 ⟨snap', hsnap', hcm⟩
    rw [hcount t, if_pos ⟨hmem, hts⟩]

/-- Witness for C7 on Scenario D: u1 and u2 connected, one unread message
from u2 in chat C, u1 sends mark_read. -/
theorem c7_mark_read_room_fanout_witness :
    countOccur (Output.messagesRead "s2" "C" "u1")
      (step (runState sampleDB [Event.connect "u1" "s1", Event.connect "u2" "s2",
        Event.sendMessage "s2" "C" "hola" none]) (Event.markRead "s1" "C" none)).2 =
      if "s2" ∈ (runState sampleDB [Event.connect "u1" "s1", Event.connect "u2" "s2",
        Event.sendMessage "s2" "C" "hola" none]).rooms "C" ∧ "s2" ≠ "s1" then 1 else 0 :=
  (c7_mark_read_room_fanout sampleDB [Event.connect "u1" "s1", Event.connect "u2" "s2",
    Event.sendMessage "s2" "C" "hola" none] "s1" "C" ⟨"u1", "Ana", "p1"⟩
    (by decide) (by decide)).2.2.2.1 "s2"

/-- C3: the claim states that sessions of non-members receive nothing.  On
the physically well-formed trace where u2 connects (auto-joining room C)
and then leaves chat C through the chat controller, u2 is no longer a
member when u1 sends, yet u2's still-subscribed session receives the
new_message. -/
theorem c3_nonmember_receives_counterexample :
    hasParticipant (runState sampleDB [Event.connect "u1" "s1", Event.connect "u2" "s2",
      Event.leaveChatHTTP "u2" "C", Event.sendMessage "s1" "C" "hola" none]).db "C" "u2" =
      false ∧
    Output.newMessage "s2" ⟨1, "hola", "C", "u1", false⟩ (some ⟨"u1", "Ana", "p1"⟩) ∈
      runOut sampleDB [Event.connect "u1" "s1", Event.connect "u2" "s2",
        Event.leaveChatHTTP "u2" "C", Event.sendMessage "s1" "C" "hola" none] := by
  refine ⟨by decide, by decide⟩

/-- C3 (amended): a send_message from a connected participant of an
existing chat persists the message under that chat and delivers new_message
carrying the message and the author summary (id, name, photoURL) exactly
once to every socket currently subscribed to the chat's room; sockets not
subscribed to the room receive nothing.  On membership-mutation-free
well-formed traces the subscribed sockets are exactly the connected
sessions of the chat's members, recovering the claim's delivery set. -/
theorem c3_send_member_fanout (db0 : DB) (tr : List Event) (s c content : String)
    (snap : UserInfo) (ch : DBChat) (usr : DBUser)
    (hcs : (runState db0 tr).connected s = some snap)
    (hfc : findChat (runState db0 tr).db c = some ch)
    (hp : hasParticipant (runState db0 tr).db c snap.id = true)
    (hu : findUser (runState db0 tr).db snap.id = some usr) :
    (step (runState db0 tr) (Event.sendMessage s c content none)).2 =
      ((runState db0 tr).rooms c).map (fun t => Output.newMessage t
        ⟨(runState db0 tr).db.nextMsgId, content, c, snap.id, false⟩
        (some ⟨usr.id, usr.name, usr.photoURL⟩)) ∧
    (⟨(runState db0 tr).db.nextMsgId, content, c, snap.id, false⟩ : Msg) ∈
      (step (runState db0 tr) (Event.sendMessage s c content none)).1.db.messages ∧
    (∀ t, countOccur (Output.newMessage t
        ⟨(runState db0 tr).db.nextMsgId, content, c, snap.id, false⟩
        (some ⟨usr.id, usr.name, usr.photoURL⟩))
        (step (runState db0 tr) (Event.sendMessage s c content none)).2 =
      if t ∈ (runState db0 tr).rooms c then 1 else 0) ∧
    (∀ t m a, Output.newMessage t m a ∈
        (step (runState db0 tr) (Event.sendMessage s c content none)).2 →
      t ∈ (runState db0 tr).rooms c) ∧
    (okTrace (initState db0) tr = true → noMemberChange tr = true →
      ∀ t, t ∈ (runState db0 tr).rooms c ↔
        ∃ snap', (runState db0 tr).connected t = some snap' ∧
          chatMember (runState db0 tr).db c snap'.id = true) := by
  have hbase : BaseInv (runState db0 tr) := baseInv_run (baseInv_init db0) tr
  have heq := @sendMessageStep_eq (runState db0 tr) s c content none snap ch hcs hfc hp rfl rfl rfl rfl rfl
  have hstep : step (runState db0 tr) (Event.sendMessage s c content none) =
      sendMessageStep (runState db0 tr) s c content none := rfl
  have hout : (step (runState db0 tr) (Event.sendMessage s c content none)).2 =
      ((runState db0 tr).rooms c).map (fun t => Output.newMessage t
        ⟨(runState db0 tr).db.nextMsgId, content, c, snap.id, false⟩
        (some ⟨usr.id, usr.name, usr.photoURL⟩)) := by
    rw [hstep, heq]
    simp [hu]
  refine ⟨hout, ?_, ?_, ?_, ?_⟩
  · rw [hstep, heq]
    show _ ∈ (touchChat _ c).messages
    rw [show ∀ db' : DB, (touchChat db' c).messages = db'.messages from fun db' => rfl]
    exact List.mem_append_right _ (List.mem_singleton.2 rfl)
  · intro t
    rw [hout]
    have hinj : ∀ x y : String, (fun t' => Output.newMessage t'
        ⟨(runState db0 tr).db.nextMsgId, content, c, snap.id, false⟩
        (some ⟨usr.id, usr.name, usr.photoURL⟩)) x =
        (fun t' => Output.newMessage t'
        ⟨(runState db0 tr).db.nextMsgId, content, c, snap.id, false⟩
        (some ⟨usr.id, usr.name, usr.photoURL⟩)) y → x = y := by
      intro x y h
      injection h
    rw [countOccur_map_inj hinj]
    by_cases hin : t ∈ (runState db0 tr).rooms c
    · rw [if_pos hin]
      exact countOccur_eq_one_of_nodup (hbase.2 c) hin
    · rw [if_neg hin]
      exact countOccur_eq_zero_of_not_mem hin
  · intro t m a hmem
    rw [hout] at hmem
    rcases List.mem_map.1 hmem with ⟨t', ht', heq'⟩
    injection heq' with e1 e2 e3
    rw [← e1]
    exact ht'
  · intro hok hmm t
    have hchar : RoomChar (runState db0 tr) :=
      roomChar_run (baseInv_init db0) (roomChar_init db0) hok hmm
    exact hchar c t

/-- Witness for C3 on Scenario B: u1 and u2 connected as members of C, u1
sends "hola"; the message with id 0 is delivered once to u2's session. -/
theorem c3_send_member_fanout_witness :
    countOccur (Output.newMessage "s2" ⟨0, "hola", "C", "u1", false⟩
        (some ⟨"u1", "Ana", "p1"⟩))
      (step (runState sampleDB [Event.connect "u1" "s1", Event.connect "u2" "s2"])
        (Event.sendMessage "s1" "C" "hola" none)).2 =
      if "s2" ∈ (runState sampleDB [Event.connect "u1" "s1",
        Event.connect "u2" "s2"]).rooms "C" then 1 else 0 :=
  (c3_send_member_fanout sampleDB [Event.connect "u1" "s1", Event.connect "u2" "s2"]
    "s1" "C" "hola" ⟨"u1", "Ana", "p1"⟩ ⟨"C", true, 0⟩ ⟨"u1", "Ana", "p1", true⟩
    (by decide) (by decide) (by decide) (by decide)).2.2.1 "s2"

end WorkFlowConnect
